import Mathlib

/-!
Verification development for the schedule construction and validation engine
of the class-alchemist-scheduler repository (src/unnamed/part_001).

Modelling conventions:
* JS strings are Lean `String`s; all character-level work (substring tests,
  splitting, lexicographic comparison) is done structurally on `String.data`
  so every definition evaluates inside the kernel.
* JS numbers carrying participant/revenue statistics are modelled by `Frac`,
  an unreduced fraction with a structurally positive denominator.  The engine
  only ever divides by positive integer counts (`/ count`, `/ 1000`), so
  `Frac.divNat` suffices.  `Number.prototype.toFixed(1)` on the exact decimal
  value is `Frac.round1` (round half away from zero; all engine values are
  nonnegative, where this is round half up).
* Class durations are quarter-hours (`Nat`): the source stores the decimal
  strings produced by `getClassDuration` and re-parses them with `parseFloat`
  at every use site; the values are always 0.5 / 0.75 / 1 hours, i.e. 2/3/4
  quarters, represented exactly.
* Teacher-hour trackers are kept in twentieths of an hour (`Nat`), which
  represents exactly every value produced by the tracker update
  `parseFloat((h + duration).toFixed(1))` on its reachable inputs.
* `Date.now()`/`Math.random()` in generated ids are modelled by an explicit
  oracle `suffix : Nat → String` giving the nondeterministic tail of the nth
  generated id.
-/

namespace Sched

/-! ### Character / string primitives -/

/-- Lexicographic less-or-equal on character lists, by code point
(the comparison JavaScript's default `Array.prototype.sort` uses on
the ASCII strings occurring in this program). -/
def lexLe : List Char → List Char → Bool
  | [], _ => true
  | _ :: _, [] => false
  | a :: as, b :: bs =>
    if a.toNat < b.toNat then true
    else if b.toNat < a.toNat then false
    else lexLe as bs

/-- String less-or-equal, used to model JavaScript default sort order. -/
def strLe (a b : String) : Bool := lexLe a.data b.data

/-- `needle` occurs at the start of `hay`. -/
def leadsWith : List Char → List Char → Bool
  | [], _ => true
  | _ :: _, [] => false
  | a :: as, b :: bs => a = b && leadsWith as bs

/-- `needle` occurs contiguously somewhere in `hay`. -/
def occursIn (needle : List Char) : List Char → Bool
  | [] => leadsWith needle []
  | b :: bs => leadsWith needle (b :: bs) || occursIn needle bs

/-- JavaScript `s.includes(sub)`. -/
def strIncludes (s sub : String) : Bool := occursIn sub.data s.data

/-- ASCII lower-casing of one character (JS `toLowerCase` on the ASCII
format/class names this program manipulates). -/
def charLower (c : Char) : Char :=
  if 65 ≤ c.toNat && c.toNat ≤ 90 then Char.ofNat (c.toNat + 32) else c

/-- JS `s.toLowerCase()` for ASCII strings. -/
def strLower (s : String) : String := String.mk (s.data.map charLower)

/-- Split a character list at every occurrence of `c` (JS `s.split(c)`
semantics: `"".split(c)` is `[""]`, separators at the ends produce empty
fields). -/
def splitOnCharL (c : Char) : List Char → List (List Char)
  | [] => [[]]
  | x :: xs =>
    match splitOnCharL c xs, decide (x = c) with
    | r, true => [] :: r
    | [], false => [[x]]
    | h :: t, false => (x :: h) :: t

/-- Rejoin with separator `c`; left inverse of `splitOnCharL c`. -/
def joinCharL (c : Char) : List (List Char) → List Char
  | [] => []
  | [l] => l
  | l :: ls => l ++ c :: joinCharL c ls

/-- JS `teacher.split(' ')`. -/
def splitSpace (s : String) : List String :=
  (splitOnCharL ' ' s.data).map String.mk

/-- JS `parts.join(' ')`. -/
def joinSpace : List String → String
  | [] => ""
  | [s] => s
  | s :: rest => s ++ " " ++ joinSpace rest

/-- JS `parts.join(', ')`. -/
def joinComma : List String → String
  | [] => ""
  | [s] => s
  | s :: rest => s ++ ", " ++ joinComma rest

/-- Numeric value of a digit string (models `Number`/`parseInt` on the
well-formed "HH"/"MM" numerals this program parses). -/
def digitsToNat (l : List Char) : Nat :=
  l.foldl (fun a c => a * 10 + (c.toNat - 48)) 0

/-- `n.toString().padStart(2, '0')`. -/
def pad2 (n : Nat) : String :=
  if n < 10 then "0" ++ Nat.repr n else Nat.repr n

/-- Minutes since midnight of a "HH:MM" string
(`parseInt(time.split(':')[0]) * 60 + parseInt(time.split(':')[1])`). -/
def timeToMinutes (t : String) : Nat :=
  let parts := splitOnCharL ':' t.data
  digitsToNat (parts.headD []) * 60 + digitsToNat ((parts.drop 1).headD [])

/-- Format minutes since midnight back to "HH:MM" with zero padding. -/
def minutesToTimeStr (m : Nat) : String := pad2 (m / 60) ++ ":" ++ pad2 (m % 60)

/-- JS `time.slice(0, 5)`. -/
def strTake5 (s : String) : String := String.mk (s.data.take 5)

/-- Keep the first occurrence of each element (JS `[...new Set(l)]`). -/
def dedupFirstAux {α} [DecidableEq α] : List α → List α → List α
  | _, [] => []
  | seen, x :: xs =>
    if x ∈ seen then dedupFirstAux seen xs else x :: dedupFirstAux (x :: seen) xs

/-- Keep the first occurrence of each element (JS `[...new Set(l)]`). -/
def dedupFirst {α} [DecidableEq α] (l : List α) : List α := dedupFirstAux [] l

/-! ### Exact fractions (JS numbers in statistic positions) -/

/-- An unreduced fraction `num / (dm1 + 1)`: the denominator is positive by
construction so all operations are total and kernel-computable. -/
structure Frac where
  num : Int
  dm1 : Nat
  deriving DecidableEq, Repr

/-- The (positive) denominator. -/
def Frac.den (a : Frac) : Int := (a.dm1 : Int) + 1

/-- Embed an integer. -/
def Frac.ofInt (n : Int) : Frac := ⟨n, 0⟩

/-- Exact addition (no reduction). -/
def Frac.add (a b : Frac) : Frac :=
  ⟨a.num * b.den + b.num * a.den, (a.dm1 + 1) * (b.dm1 + 1) - 1⟩

/-- Division by a positive integer `k` (all divisions in the source are by a
record count `≥ 1` or by the literal 1000). -/
def Frac.divNat (a : Frac) (k : Nat) : Frac := ⟨a.num, (a.dm1 + 1) * k - 1⟩

/-- Multiplication by the constant `n / k`, `k > 0` (the objective weights
0.7, 0.3, 0.8, 0.2, 0.5 of the source). -/
def Frac.mulDec (a : Frac) (n : Int) (k : Nat) : Frac :=
  ⟨a.num * n, (a.dm1 + 1) * k - 1⟩

/-- Exact order comparison by cross-multiplication. -/
def Frac.leB (a b : Frac) : Bool := a.num * b.den ≤ b.num * a.den

/-- Exact strict comparison by cross-multiplication. -/
def Frac.ltB (a b : Frac) : Bool := a.num * b.den < b.num * a.den

/-- `parseFloat(x.toFixed(1))` on the exact value: round to tenths, ties
toward positive infinity, i.e. `⌊10x + 1/2⌋ / 10` (integer division below
is Euclidean, hence a floor, since the divisor is positive). -/
def Frac.round1 (a : Frac) : Frac :=
  ⟨(20 * a.num + a.den) / (2 * a.den), 9⟩

/-- Sum of a list of fractions in list order starting from 0 (JS `reduce`
accumulation of per-group sums). -/
def sumFrac (l : List Frac) : Frac := l.foldl Frac.add (Frac.ofInt 0)

/-- `q` quarter-hours printed as JS `(q / 4).toFixed(1)`. -/
def fix1Q (q : Nat) : String :=
  let t := (5 * q + 1) / 2
  Nat.repr (t / 10) ++ "." ++ Nat.repr (t % 10)

/-- Hour-tracker update `parseFloat(((h || 0) + duration).toFixed(1))`,
on hours kept in twentieths and a duration in quarter-hours. -/
def round1add (h dq : Nat) : Nat := 2 * ((h + dq * 5 + 1) / 2)

/-! ### Data model -/

/-- One historical class record (the fields of `ClassData` the engine
reads). -/
structure ClassData where
  cleanedClass : String
  location : String
  dayOfWeek : String
  classTime : String
  teacherName : String
  participants : Frac
  totalRevenue : Frac
  deriving DecidableEq, Repr

/-- A custom teacher entry (`{ firstName, lastName }`). -/
structure CustomTeacher where
  firstName : String
  lastName : String
  deriving DecidableEq, Repr

/-- A generated `ScheduledClass` exactly as pushed by `assignClass`
(the push site never sets `isLocked`, so it is not a field here;
`duration` is in quarter-hours). -/
structure SC where
  id : String
  day : String
  time : String
  location : String
  classFormat : String
  teacherFirstName : String
  teacherLastName : String
  duration : Nat
  participants : Frac
  revenue : Frac
  isTopPerformer : Bool
  isPrivate : Bool
  deriving DecidableEq, Repr

/-- The `` `${cls.teacherFirstName} ${cls.teacherLastName}` `` name the
engine uses to match a scheduled class to a teacher. -/
def fullName (c : SC) : String := c.teacherFirstName ++ " " ++ c.teacherLastName

/-- The optimization objective values of `options.optimizationType`. -/
inductive OptType
  | revenue
  | attendance
  | balanced
  deriving DecidableEq, Repr

/-- The options record of `generateIntelligentSchedule`; only `targetDay`
and `optimizationType` are ever read by the function body, so only those are
modelled. -/
structure Options where
  targetDay : Option String := none
  optimizationType : Option OptType := none
  deriving DecidableEq, Repr

/-- Result record of `validateTeacherHours`; absent JS fields are `none`. -/
structure VRes where
  isValid : Bool
  warning : Option String
  error : Option String
  canOverride : Option Bool
  deriving DecidableEq, Repr

/-- One entry of `getDefaultTopClasses`. -/
structure DefaultTopClass where
  classFormat : String
  day : String
  time : String
  location : String
  teacher : String
  avgParticipants : Frac
  isLocked : Bool
  deriving DecidableEq, Repr

/-- Day guidelines (`focus`, `avoid`, `priority`). -/
structure Guidelines where
  focus : String
  avoid : List String
  priority : List String
  deriving DecidableEq, Repr

/-- One teacher specialty (`{ classFormat, avgParticipants, classCount }`). -/
structure Specialty where
  classFormat : String
  avgParticipants : Frac
  classCount : Nat
  deriving DecidableEq, Repr

/-- One ranked candidate format produced inside `getBestClassForSlot`. -/
structure RankedFormat where
  classFormat : String
  avgParticipants : Frac
  avgRevenue : Frac
  count : Nat
  isPriority : Bool
  optimizationScore : Frac
  deriving DecidableEq, Repr

/-! ### Static engine tables -/

/-- `getClassDuration`, in quarter-hours (source returns '0.75' / '0.5' /
'1'). -/
def getClassDuration (className : String) : Nat :=
  let lowerName := strLower className
  if strIncludes lowerName "express" then 3
  else if strIncludes lowerName "recovery" || strIncludes lowerName "sweat in 30" then 2
  else 4

/-- `isHostedClass`. -/
def isHostedClass (className : String) : Bool :=
  strIncludes (strLower className) "hosted"

/-- `isClassAllowedAtLocation`. -/
def isClassAllowedAtLocation (classFormat location : String) : Bool :=
  let lowerFormat := strLower classFormat
  if location = "Supreme HQ, Bandra" then
    if strIncludes lowerFormat "amped up" || strIncludes lowerFormat "hiit" then false
    else true
  else
    if strIncludes lowerFormat "powercycle" || strIncludes lowerFormat "power cycle" then false
    else true

/-- `getMaxParallelClasses` (studio capacity per location). -/
def getMaxParallelClasses (location : String) : Nat :=
  if location = "Supreme HQ, Bandra" then 3
  else if location = "Kwality House, Kemps Corner" then 2
  else if location = "Kenkere House" then 2
  else 1

/-- `getOccupiedTimeSlots`: the 30-minute sub-slot labels a class covers,
starting at its start time (duration in quarter-hours). -/
def getOccupiedTimeSlots (startTime : String) (durQ : Nat) : List String :=
  let startMinutes := timeToMinutes startTime
  let durationMinutes := durQ * 15
  (List.range ((durationMinutes + 29) / 30)).map
    (fun i => minutesToTimeStr (startMinutes + 30 * i))

/-- The number of already scheduled classes at `location` on `day` whose
occupied sub-slots include `slot` (the `conflictingClasses.length` of
`canAssignClassToStudio`). -/
def occCount (classes : List SC) (location day slot : String) : Nat :=
  classes.countP (fun c =>
    decide (c.location = location) && decide (c.day = day) &&
    (getOccupiedTimeSlots c.time c.duration).contains slot)

/-- `canAssignClassToStudio`: every sub-slot the new class would occupy must
currently hold fewer same-location same-day classes than the studio
capacity. -/
def canAssignClassToStudio (classes : List SC) (day time location : String)
    (durQ : Nat) : Bool :=
  let maxParallel := getMaxParallelClasses location
  (getOccupiedTimeSlots time durQ).all (fun slot =>
    occCount classes location day slot < maxParallel)

/-- `isTimeRestricted`: the 12:00-17:00 window blocks non-private classes.
The `day` parameter is unused in the source body as well. -/
def isTimeRestricted (time : String) (_day : String) (isPrivateClass : Bool) : Bool :=
  let timeInMinutes := timeToMinutes time
  let isInRestrictedPeriod := 12 * 60 ≤ timeInMinutes && timeInMinutes < 17 * 60
  if isPrivateClass && isInRestrictedPeriod then false
  else isInRestrictedPeriod

/-- The four quarter-hour labels of one hour (`generateTimeSlots` body). -/
def hourSlots (hour : Nat) : List String :=
  [pad2 hour ++ ":00", pad2 hour ++ ":15", pad2 hour ++ ":30", pad2 hour ++ ":45"]

/-- `generateTimeSlots(startHour, endHour)` (inclusive hour range). -/
def generateTimeSlots (startHour endHour : Nat) : List String :=
  (((List.range (endHour + 1 - startHour)).map (· + startHour)).map hourSlots).flatten

/-- JS default `Array.prototype.sort` on strings: a stable sort by
code-point order. -/
def sortStr (l : List String) : List String :=
  List.insertionSort (fun a b => strLe a b = true) l

/-- `getAvailableTimeSlots`. -/
def getAvailableTimeSlots (day : String) : List String :=
  if day = "Sunday" then
    sortStr (generateTimeSlots 10 11 ++ generateTimeSlots 17 19)
  else if day = "Saturday" then
    sortStr (["08:30", "08:45"] ++ generateTimeSlots 9 11 ++ generateTimeSlots 17 19)
  else
    sortStr ((["07:30", "07:45"] ++ generateTimeSlots 8 11) ++ generateTimeSlots 17 19)

/-- `isMorningSlot`. -/
def isMorningSlot (time : String) : Bool :=
  digitsToNat ((splitOnCharL ':' time.data).headD []) < 12

/-- `isEveningSlot`. -/
def isEveningSlot (time : String) : Bool :=
  17 ≤ digitsToNat ((splitOnCharL ':' time.data).headD [])

/-- `isPeakHour`. -/
def isPeakHour (time : String) : Bool :=
  let hour := digitsToNat ((splitOnCharL ':' time.data).headD [])
  (7 ≤ hour && hour ≤ 11) || (17 ≤ hour && hour ≤ 19)

/-- `getDayGuidelines`. -/
def getDayGuidelines (day : String) : Guidelines :=
  if day = "Monday" then
    { focus := "Strong start with high-demand formats & senior trainers - MUST start at 7:30 AM",
      avoid := ["Studio Recovery"],
      priority := ["Studio Barre 57", "Studio FIT", "Studio powerCycle", "Studio Mat 57"] }
  else if day = "Tuesday" then
    { focus := "Balance beginner & intermediate classes - MUST start at 7:30 AM",
      avoid := ["Studio HIIT", "Studio Amped Up!"],
      priority := ["Studio Barre 57", "Studio Mat 57", "Studio Foundations", "Studio Cardio Barre"] }
  else if day = "Wednesday" then
    { focus := "Midweek peak - repeat Monday\x27s popular formats - MUST start at 7:30 AM",
      avoid := [],
      priority := ["Studio Barre 57", "Studio FIT", "Studio powerCycle", "Studio Mat 57"] }
  else if day = "Thursday" then
    { focus := "Lighter mix with recovery formats - MUST start at 7:30 AM",
      avoid := [],
      priority := ["Studio Recovery", "Studio Mat 57", "Studio Cardio Barre", "Studio Back Body Blaze"] }
  else if day = "Friday" then
    { focus := "Energy-focused with HIIT/Advanced classes - MUST start at 7:30 AM",
      avoid := [],
      priority := ["Studio HIIT", "Studio Amped Up!", "Studio FIT", "Studio Cardio Barre"] }
  else if day = "Saturday" then
    { focus := "Family-friendly & community formats - Start 8:30 AM or 9:00 AM onwards",
      avoid := ["Studio HIIT"],
      priority := ["Studio Barre 57", "Studio Foundations", "Studio Recovery", "Studio Mat 57"] }
  else if day = "Sunday" then
    { focus := "Max 4-5 classes, highest scoring formats only - Start 10:00 AM onwards",
      avoid := ["Studio HIIT", "Studio Amped Up!"],
      priority := ["Studio Barre 57", "Studio Recovery", "Studio Mat 57"] }
  else { focus := "", avoid := [], priority := [] }

/-- `getDefaultTopClasses`. -/
def getDefaultTopClasses : List DefaultTopClass :=
  [ { classFormat := "Studio Barre 57", day := "Monday", time := "07:30",
      location := "Kwality House, Kemps Corner", teacher := "Anisha Shah",
      avgParticipants := Frac.ofInt 12, isLocked := true },
    { classFormat := "Studio Mat 57", day := "Monday", time := "08:30",
      location := "Kwality House, Kemps Corner", teacher := "Anisha Shah",
      avgParticipants := Frac.ofInt 10, isLocked := true },
    { classFormat := "Studio Barre 57", day := "Monday", time := "18:45",
      location := "Kwality House, Kemps Corner", teacher := "Pranjali Jain",
      avgParticipants := Frac.ofInt 9, isLocked := true },
    { classFormat := "Studio FIT", day := "Tuesday", time := "07:30",
      location := "Kwality House, Kemps Corner", teacher := "Anisha Shah",
      avgParticipants := Frac.ofInt 11, isLocked := true },
    { classFormat := "Studio FIT", day := "Tuesday", time := "19:15",
      location := "Kwality House, Kemps Corner", teacher := "Richard D\x27Costa",
      avgParticipants := Frac.ofInt 9, isLocked := true },
    { classFormat := "Studio Cardio Barre (Express)", day := "Wednesday", time := "07:30",
      location := "Kwality House, Kemps Corner", teacher := "Anisha Shah",
      avgParticipants := Frac.ofInt 10, isLocked := true },
    { classFormat := "Studio Mat 57 (Express)", day := "Thursday", time := "07:30",
      location := "Kwality House, Kemps Corner", teacher := "Mrigakshi Jaiswal",
      avgParticipants := Frac.ofInt 8, isLocked := true },
    { classFormat := "Studio Back Body Blaze (Express)", day := "Friday", time := "07:30",
      location := "Kwality House, Kemps Corner", teacher := "Mrigakshi Jaiswal",
      avgParticipants := Frac.ofInt 9, isLocked := true },
    { classFormat := "Studio Mat 57", day := "Saturday", time := "10:15",
      location := "Kwality House, Kemps Corner", teacher := "Pranjali Jain",
      avgParticipants := Frac.ofInt 12, isLocked := true },
    { classFormat := "Studio Barre 57", day := "Sunday", time := "11:30",
      location := "Kwality House, Kemps Corner", teacher := "Rohan Dahima",
      avgParticipants := Frac.ofInt 10, isLocked := true } ]

/-- The trainer category tables declared inside
`generateIntelligentSchedule`. -/
def seniorTrainers : List String :=
  ["Anisha", "Vivaran", "Mrigakshi", "Pranjali", "Atulan", "Cauveri", "Rohan"]

/-- Names marking `new` trainers (matched by substring). -/
def newTrainers : List String := ["Kabir", "Simonelle"]

/-- Formats reserved to senior trainers. -/
def advancedFormats : List String := ["Studio HIIT", "Studio Amped Up!"]

/-- The whitelist of formats a new trainer may teach (identical literal list
in `generateIntelligentSchedule` and `validateTeacherHours`). -/
def newTrainerAllowedFormats : List String :=
  ["Studio Barre 57", "Studio Barre 57 (Express)", "Studio powerCycle",
   "Studio powerCycle (Express)", "Studio Cardio Barre"]

/-- The `locations` list of the engine. -/
def engineLocations : List String :=
  ["Kwality House, Kemps Corner", "Supreme HQ, Bandra", "Kenkere House"]

/-- The full week, in engine order. -/
def week : List String :=
  ["Monday", "Tuesday", "Wednesday", "Thursday", "Friday", "Saturday", "Sunday"]

/-- `getUniqueTeachers`. -/
def getUniqueTeachers (csv : List ClassData) (customTeachers : List CustomTeacher) :
    List String :=
  let csvTeachers := (csv.map (·.teacherName)).filter
    (fun t => !(strIncludes t "Nishanth") && !(strIncludes t "Saniya"))
  let customTeacherNames := customTeachers.map (fun t => t.firstName ++ " " ++ t.lastName)
  let defaultTopTeachers := getDefaultTopClasses.map (·.teacher)
  sortStr (dedupFirst (csvTeachers ++ customTeacherNames ++ defaultTopTeachers))

/-- `getBestTeacherForClass`. -/
def getBestTeacherForClass (csv : List ClassData)
    (classFormat location day time : String) : Option String :=
  match getDefaultTopClasses.find? (fun c =>
      decide (c.classFormat = classFormat) && decide (c.location = location) &&
      decide (c.day = day) && decide (c.time = time)) with
  | some defaultClass => some defaultClass.teacher
  | none =>
    let relevantClasses := csv.filter (fun r =>
      decide (r.cleanedClass = classFormat) && decide (r.location = location) &&
      decide (r.dayOfWeek = day) && strIncludes r.classTime time &&
      !(isHostedClass r.cleanedClass) &&
      !(strIncludes r.teacherName "Nishanth") && !(strIncludes r.teacherName "Saniya"))
    if relevantClasses.isEmpty then none
    else
      let teachers := dedupFirst (relevantClasses.map (·.teacherName))
      let scored := teachers.map (fun t =>
        let recs := relevantClasses.filter (fun r => decide (r.teacherName = t))
        (t, Frac.divNat (sumFrac (recs.map (·.participants))) recs.length))
      ((List.insertionSort
          (fun a b : String × Frac => Frac.leB b.2 a.2 = true) scored).head?).map (·.1)

/-- `getTeacherSpecialties(csvData)[teacher] || []` as a per-teacher
function: top 5 formats of this teacher by (class count, then average
participants). -/
def specialtiesOf (csv : List ClassData) (teacher : String) : List Specialty :=
  let recs := csv.filter (fun r =>
    decide (r.teacherName = teacher) && !(isHostedClass r.cleanedClass) &&
    !(strIncludes r.teacherName "Nishanth") && !(strIncludes r.teacherName "Saniya"))
  let formats := dedupFirst (recs.map (·.cleanedClass))
  let specs := formats.map (fun f =>
    let frecs := recs.filter (fun r => decide (r.cleanedClass = f))
    { classFormat := f,
      avgParticipants :=
        Frac.round1 (Frac.divNat (sumFrac (frecs.map (·.participants))) frecs.length),
      classCount := frecs.length : Specialty })
  (List.insertionSort (fun a b : Specialty =>
    (if a.classCount = b.classCount
     then Frac.leB b.avgParticipants a.avgParticipants
     else decide (b.classCount < a.classCount)) = true) specs).take 5

/-! ### Candidate-format ranking (`getBestClassForSlot`) -/

/-- The filtered record set `slotData` of `getBestClassForSlot`. -/
def slotDataFor (csv : List ClassData) (location day time : String)
    (guidelines : Guidelines) : List ClassData :=
  csv.filter (fun r =>
    decide (r.location = location) && decide (r.dayOfWeek = day) &&
    strIncludes r.classTime (strTake5 time) &&
    !(isHostedClass r.cleanedClass) &&
    isClassAllowedAtLocation r.cleanedClass location &&
    !(guidelines.avoid.contains r.cleanedClass) &&
    Frac.leB (Frac.ofInt 5) r.participants)

/-- One per-format statistics row built inside `getBestClassForSlot` from
the filtered `slotData`. -/
def formatStatRow (slotData : List ClassData) (optimizationType : Option OptType)
    (guidelines : Guidelines) (f : String) : RankedFormat :=
  let recs := slotData.filter (fun r => decide (r.cleanedClass = f))
  let pSum := sumFrac (recs.map (·.participants))
  let rSum := sumFrac (recs.map (·.totalRevenue))
  let participantScore := Frac.divNat pSum recs.length
  let revenueScore := Frac.divNat (Frac.divNat rSum recs.length) 1000
  { classFormat := f,
    avgParticipants := Frac.round1 (Frac.divNat pSum recs.length),
    avgRevenue := Frac.divNat rSum recs.length,
    count := recs.length,
    isPriority := guidelines.priority.contains f,
    optimizationScore :=
      match optimizationType with
      | some OptType.revenue =>
        Frac.add (Frac.mulDec revenueScore 7 10) (Frac.mulDec participantScore 3 10)
      | some OptType.attendance =>
        Frac.add (Frac.mulDec participantScore 8 10) (Frac.mulDec revenueScore 2 10)
      | _ =>
        Frac.add (Frac.mulDec participantScore 5 10) (Frac.mulDec revenueScore 5 10) }

/-- The per-format statistics rows of `getBestClassForSlot`, in first
occurrence order (JS object key order). -/
def rankedFormatsFor (csv : List ClassData) (optimizationType : Option OptType)
    (location day time : String) (guidelines : Guidelines) : List RankedFormat :=
  let slotData := slotDataFor csv location day time guidelines
  (dedupFirst (slotData.map (·.cleanedClass))).map
    (formatStatRow slotData optimizationType guidelines)

/-- The sort order of `rankedFormats`: day-priority formats first, then
optimization score descending. -/
def rankLE (a b : RankedFormat) : Bool :=
  if a.isPriority && !b.isPriority then true
  else if !a.isPriority && b.isPriority then false
  else Frac.leB b.optimizationScore a.optimizationScore

/-- `getBestClassForSlot`. -/
def getBestClassForSlot (csv : List ClassData) (optimizationType : Option OptType)
    (location day time : String) (guidelines : Guidelines) : Option RankedFormat :=
  if (slotDataFor csv location day time guidelines).isEmpty then none
  else (List.insertionSort (fun a b => rankLE a b = true)
    (rankedFormatsFor csv optimizationType location day time guidelines)).head?

/-! ### Builder state and helpers of `generateIntelligentSchedule` -/

/-- Pointwise update of a one-key tracker record. -/
def upd1 {β : Type} (f : String → β) (k : String) (v : β) : String → β :=
  fun x => if x = k then v else f x

/-- Pointwise update of a two-key tracker record. -/
def upd2 {β : Type} (f : String → String → β) (k1 k2 : String) (v : β) :
    String → String → β :=
  fun x y => if x = k1 ∧ y = k2 then v else f x y

/-- The mutable trackers of `generateIntelligentSchedule`:
`optimizedClasses`, `teacherHoursTracker` (twentieths of an hour),
`teacherDailyHours`, `teacherDailyClassCount`, `teacherShiftAssignments`
(morning/evening), `teacherLocationsPerDay`.  The source initializes every
(teacher, day) key to zero / false / empty; total functions with those
defaults read identically. -/
structure BuildState where
  classes : List SC
  hoursW : String → Nat
  hoursD : String → String → Nat
  countD : String → String → Nat
  shiftM : String → String → Bool
  shiftE : String → String → Bool
  locsD : String → String → List String

/-- The state before Phase 0. -/
def initState : BuildState :=
  { classes := [], hoursW := fun _ => 0, hoursD := fun _ _ => 0,
    countD := fun _ _ => 0, shiftM := fun _ _ => false,
    shiftE := fun _ _ => false, locsD := fun _ _ => [] }

/-- The advance step of `getConsecutiveClassesCount`: walk the sorted start
times keeping the current and maximal run of gaps ≤ 90 minutes. -/
def consRun : String → Nat → Nat → List String → Nat
  | _, maxConsecutive, _, [] => maxConsecutive
  | prev, maxConsecutive, currentConsecutive, t :: rest =>
    if (timeToMinutes t : Int) - (timeToMinutes prev : Int) ≤ 90 then
      consRun t (Nat.max maxConsecutive (currentConsecutive + 1))
        (currentConsecutive + 1) rest
    else consRun t maxConsecutive 1 rest

/-- The maximal run of gap-≤-90-minutes times in an already sorted list
(1 on the empty list, as in the source initialization). -/
def maxRunSorted : List String → Nat
  | [] => 1
  | t :: rest => consRun t 1 1 rest

/-- The start times of `teacherName`'s classes on `day`, in schedule
order (the `teacherDayClasses` list of `getConsecutiveClassesCount` before
the new time is appended). -/
def timesOf (classes : List SC) (teacherName day : String) : List String :=
  (classes.filter (fun c =>
    decide (fullName c = teacherName) && decide (c.day = day))).map (·.time)

/-- `getConsecutiveClassesCount`. -/
def getConsecutiveClassesCount (classes : List SC)
    (teacherName day newTime : String) : Nat :=
  maxRunSorted (sortStr (timesOf classes teacherName day ++ [newTime]))

/-- `canAssignTeacher` (the enhanced in-construction eligibility check).
`days` is the key set of the per-day trackers (`Object.keys`), i.e. the
day list of this run. -/
def canAssignTeacher (days : List String) (st : BuildState)
    (teacherName day time : String) (durQ : Nat)
    (classFormat location : String) : Bool :=
  let weeklyHours := st.hoursW teacherName
  let dailyHours := st.hoursD teacherName day
  let dailyClassCount := st.countD teacherName day
  let isNewTrainer := newTrainers.any (fun n => strIncludes teacherName n)
  let maxWeeklyHours : Nat := if isNewTrainer then 200 else 300
  if isNewTrainer && !(newTrainerAllowedFormats.contains classFormat) then false
  else if advancedFormats.contains classFormat &&
      !(seniorTrainers.any (fun n => strIncludes teacherName n)) then false
  else if decide (maxWeeklyHours < weeklyHours + durQ * 5) ||
      decide (80 < dailyHours + durQ * 5) then false
  else if 4 ≤ dailyClassCount then false
  else if 2 < getConsecutiveClassesCount st.classes teacherName day time then false
  else if !(st.locsD teacherName day).isEmpty &&
      !((st.locsD teacherName day).contains location) then false
  else if 5 ≤ (days.filter (fun d => 0 < st.hoursD teacherName d)).length &&
      st.hoursD teacherName day = 0 then false
  else true

/-- `findBestTeacherForClass`: filter by `canAssignTeacher`, score, pick the
stable-sort maximum. -/
def findBestTeacherForClass (csv : List ClassData) (days allTs : List String)
    (st : BuildState) (classFormat location day time : String) : Option String :=
  let isNewClassMorning := isMorningSlot time
  let isPeak := isPeakHour time
  let historicBestTeacher := getBestTeacherForClass csv classFormat location day time
  let candidateTeachers := allTs.filter (fun t =>
    canAssignTeacher days st t day time (getClassDuration classFormat) classFormat location)
  if candidateTeachers.isEmpty then none
  else
    let scoredTeachers := candidateTeachers.map (fun t =>
      let score : Nat :=
        (if historicBestTeacher = some t then 100 else 0) +
        (if isPeak && seniorTrainers.any (fun n => strIncludes t n) then 50 else 0) +
        (if (st.locsD t day).contains location then 40 else 0) +
        (if isNewClassMorning && !(st.shiftE t day) then 30 else 0) +
        (if !isNewClassMorning && !(st.shiftM t day) then 30 else 0) +
        (if st.hoursW t + 60 <
            (if newTrainers.any (fun n => strIncludes t n) then 200 else 300)
         then 20 else 0) +
        (if isNewClassMorning && st.shiftM t day then 15 else 0) +
        (if !isNewClassMorning && st.shiftE t day then 15 else 0)
      (t, score))
    ((List.insertionSort (fun a b : String × Nat => b.2 ≤ a.2) scoredTeachers).head?).map
      (·.1)

/-- The `classData` argument of `assignClass` (`isLocked` values passed in
by callers are never read by the push). -/
structure AssignData where
  classFormat : String
  location : String
  day : String
  time : String
  avgParticipants : Frac
  avgRevenue : Frac
  isPrivate : Bool := false
  deriving Repr

/-- `assignClass`: capacity gate, push of the new `ScheduledClass`, and
tracker updates.  The id tail `` `${Date.now()}-${Math.random()}` `` is
`suffix n` for the nth pushed class. -/
def assignClass (suffix : Nat → String) (st : BuildState) (cd : AssignData)
    (teacher : String) : BuildState × Bool :=
  let duration := getClassDuration cd.classFormat
  if !(canAssignClassToStudio st.classes cd.day cd.time cd.location duration) then
    (st, false)
  else
    let parts := splitSpace teacher
    let sc : SC :=
      { id := "ai-optimized-" ++ cd.location ++ "-" ++ cd.day ++ "-" ++ cd.time ++
          "-" ++ suffix st.classes.length,
        day := cd.day, time := cd.time, location := cd.location,
        classFormat := cd.classFormat,
        teacherFirstName := parts.headD "",
        teacherLastName := joinSpace (parts.drop 1),
        duration := duration,
        participants := cd.avgParticipants,
        revenue := cd.avgRevenue,
        isTopPerformer := Frac.ltB (Frac.ofInt 6) cd.avgParticipants,
        isPrivate := cd.isPrivate }
    ({ classes := st.classes ++ [sc],
       hoursW := upd1 st.hoursW teacher (round1add (st.hoursW teacher) duration),
       hoursD := upd2 st.hoursD teacher cd.day
         (round1add (st.hoursD teacher cd.day) duration),
       countD := upd2 st.countD teacher cd.day (st.countD teacher cd.day + 1),
       shiftM := if isMorningSlot cd.time then upd2 st.shiftM teacher cd.day true
         else st.shiftM,
       shiftE := if !(isMorningSlot cd.time) && isEveningSlot cd.time then
         upd2 st.shiftE teacher cd.day true else st.shiftE,
       locsD := if (st.locsD teacher cd.day).contains cd.location then st.locsD
         else upd2 st.locsD teacher cd.day (st.locsD teacher cd.day ++ [cd.location]) },
     true)

/-- The fixed context of one `generateIntelligentSchedule` run. -/
structure Ctx where
  csv : List ClassData
  opts : Options
  days : List String
  allTs : List String
  suffix : Nat → String

/-! ### The four construction phases -/

/-- Phase 0: seed the locked default top classes. -/
def phase0 (k : Ctx) (st : BuildState) : BuildState :=
  getDefaultTopClasses.foldl (fun st dc =>
    if (match k.opts.targetDay with
        | some td => decide (dc.day ≠ td)
        | none => false) then st
    else if canAssignTeacher k.days st dc.teacher dc.day dc.time
        (getClassDuration dc.classFormat) dc.classFormat dc.location then
      (assignClass k.suffix st
        { classFormat := dc.classFormat, location := dc.location, day := dc.day,
          time := dc.time, avgParticipants := dc.avgParticipants,
          avgRevenue := Frac.ofInt 0 } dc.teacher).1
    else st) st

/-- Phase 1: the mandatory weekday 07:30 class at Kwality House. -/
def phase1 (k : Ctx) (st : BuildState) : BuildState :=
  k.days.foldl (fun st day =>
    if (["Saturday", "Sunday"].contains day) then st
    else if st.classes.any (fun c =>
        decide (c.day = day) && decide (c.time = "07:30") &&
        decide (c.location = "Kwality House, Kemps Corner")) then st
    else
      match getBestClassForSlot k.csv k.opts.optimizationType
          "Kwality House, Kemps Corner" day "07:30" (getDayGuidelines day) with
      | none => st
      | some bestClass =>
        match findBestTeacherForClass k.csv k.days k.allTs st bestClass.classFormat
            "Kwality House, Kemps Corner" day "07:30" with
        | none => st
        | some bestTeacher =>
          (assignClass k.suffix st
            { classFormat := bestClass.classFormat,
              location := "Kwality House, Kemps Corner", day := day, time := "07:30",
              avgParticipants := bestClass.avgParticipants,
              avgRevenue := bestClass.avgRevenue } bestTeacher).1) st

/-- The per-slot attempt loop of Phase 2 (`for attempt in 0..targetClasses`),
threading the day-level class counter; a capacity failure or a failed
assignment breaks out of the loop. -/
def p2attempts (k : Ctx) (day location time : String) (guidelines : Guidelines) :
    Nat → BuildState → Nat → BuildState × Nat
  | 0, st, cnt => (st, cnt)
  | n + 1, st, cnt =>
    if !(canAssignClassToStudio st.classes day time location 4) then (st, cnt)
    else
      match getBestClassForSlot k.csv k.opts.optimizationType location day time
          guidelines with
      | none => p2attempts k day location time guidelines n st cnt
      | some bestClass =>
        let existingFormats := (st.classes.filter (fun c =>
          decide (c.location = location) && decide (c.day = day) &&
          decide (c.time = time))).map (·.classFormat)
        if existingFormats.contains bestClass.classFormat then
          p2attempts k day location time guidelines n st cnt
        else
          match findBestTeacherForClass k.csv k.days k.allTs st bestClass.classFormat
              location day time with
          | none => p2attempts k day location time guidelines n st cnt
          | some bestTeacher =>
            let r := assignClass k.suffix st
              { classFormat := bestClass.classFormat, location := location,
                day := day, time := time,
                avgParticipants := bestClass.avgParticipants,
                avgRevenue := bestClass.avgRevenue } bestTeacher
            if r.2 then p2attempts k day location time guidelines n r.1 (cnt + 1)
            else (r.1, cnt)

/-- The time-slot loop of Phase 2 at one (day, location); reaching the
day-level class cap breaks out. -/
def p2times (k : Ctx) (day location : String) (guidelines : Guidelines)
    (maxClassesForDay : Nat) :
    List String → BuildState → Nat → BuildState × Nat
  | [], st, cnt => (st, cnt)
  | time :: rest, st, cnt =>
    if maxClassesForDay ≤ cnt then (st, cnt)
    else
      let isPeak := isPeakHour time
      let targetClasses : Nat :=
        if decide (k.opts.optimizationType = some OptType.revenue) && isPeak then
          getMaxParallelClasses location
        else if k.opts.optimizationType = some OptType.attendance then
          Nat.min 2 (getMaxParallelClasses location)
        else if location = "Kwality House, Kemps Corner" then
          (if ["07:30", "09:00", "11:00", "18:00", "19:15"].contains time then 2 else 1)
        else if location = "Supreme HQ, Bandra" then
          (if ["08:00", "09:00", "10:00", "18:00", "19:00"].contains time then 2 else 1)
        else 1
      let r := p2attempts k day location time guidelines targetClasses st cnt
      p2times k day location guidelines maxClassesForDay rest r.1 r.2

/-- One day of Phase 2: loop over all locations and that day's slots. -/
def phase2day (k : Ctx) (st : BuildState) (day : String) : BuildState :=
  let guidelines := getDayGuidelines day
  let availableSlots := getAvailableTimeSlots day
  let maxClassesForDay :=
    if day = "Sunday" then 5 else availableSlots.length * engineLocations.length
  let cnt0 := (st.classes.filter (fun c => decide (c.day = day))).length
  (engineLocations.foldl (fun (p : BuildState × Nat) location =>
    p2times k day location guidelines maxClassesForDay availableSlots p.1 p.2)
    (st, cnt0)).1

/-- Phase 2: fill available time slots. -/
def phase2 (k : Ctx) (st : BuildState) : BuildState :=
  k.days.foldl (phase2day k) st

/-- The time loop of Phase 3 for one (teacher, specialty, location, day);
a successful assignment breaks out of the time loop only. -/
def p3times (k : Ctx) (teacher : String) (sp : Specialty) (day location : String) :
    List String → BuildState → BuildState
  | [], st => st
  | time :: rest, st =>
    let duration := getClassDuration sp.classFormat
    if !(canAssignClassToStudio st.classes day time location duration) then
      p3times k teacher sp day location rest st
    else if (st.classes.filter (fun c =>
        decide (c.location = location) && decide (c.day = day) &&
        decide (c.time = time))).any (fun c =>
          decide (c.classFormat = sp.classFormat)) then
      p3times k teacher sp day location rest st
    else if canAssignTeacher k.days st teacher day time duration sp.classFormat
        location then
      let r := assignClass k.suffix st
        { classFormat := sp.classFormat, location := location, day := day,
          time := time, avgParticipants := sp.avgParticipants,
          avgRevenue := Frac.ofInt 0 } teacher
      if r.2 then r.1 else p3times k teacher sp day location rest r.1
    else p3times k teacher sp day location rest st

/-- The location × day loops of Phase 3 for one specialty; `peakOnly`
distinguishes the revenue branch (peak slots only). -/
def p3locs (k : Ctx) (teacher : String) (sp : Specialty) (peakOnly : Bool)
    (st : BuildState) : BuildState :=
  engineLocations.foldl (fun st location =>
    if !(isClassAllowedAtLocation sp.classFormat location) then st
    else k.days.foldl (fun st day =>
      if 80 ≤ st.hoursD teacher day || 4 ≤ st.countD teacher day then st
      else
        let slots := if peakOnly then (getAvailableTimeSlots day).filter isPeakHour
          else getAvailableTimeSlots day
        p3times k teacher sp day location slots st) st) st

/-- The specialty loop of Phase 3; reaching the weekly hour target breaks
out. -/
def p3specs (k : Ctx) (teacher : String) (target20 : Nat) (peakOnly : Bool) :
    List Specialty → BuildState → BuildState
  | [], st => st
  | sp :: rest, st =>
    if target20 ≤ st.hoursW teacher then st
    else p3specs k teacher target20 peakOnly rest (p3locs k teacher sp peakOnly st)

/-- Phase 3 body for one teacher. -/
def phase3teacher (k : Ctx) (st : BuildState) (teacher : String) : BuildState :=
  let currentHours := st.hoursW teacher
  let isNewTrainer := newTrainers.any (fun n => strIncludes teacher n)
  let targetHours : Nat := if isNewTrainer then 200 else 300
  if decide (k.opts.optimizationType = some OptType.revenue) &&
      decide (currentHours + 40 < targetHours) then
    let highRevenueSpecialties := ((specialtiesOf k.csv teacher).filter
      (fun sp => Frac.ltB (Frac.ofInt 8) sp.avgParticipants)).take 2
    p3specs k teacher targetHours true highRevenueSpecialties st
  else if currentHours + 20 < targetHours then
    p3specs k teacher targetHours false ((specialtiesOf k.csv teacher).take 3) st
  else st

/-- Phase 3: top up under-target teachers. -/
def phase3 (k : Ctx) (st : BuildState) : BuildState :=
  k.allTs.foldl (phase3teacher k) st

/-- The context built at the top of `generateIntelligentSchedule`. -/
def mkCtx (csv : List ClassData) (customTeachers : List CustomTeacher)
    (opts : Options) (suffix : Nat → String) : Ctx :=
  { csv := csv, opts := opts,
    days := match opts.targetDay with | some d => [d] | none => week,
    allTs := getUniqueTeachers csv customTeachers,
    suffix := suffix }

/-- The final state of one run. -/
def runState (csv : List ClassData) (customTeachers : List CustomTeacher)
    (opts : Options) (suffix : Nat → String) : BuildState :=
  let k := mkCtx csv customTeachers opts suffix
  phase3 k (phase2 k (phase1 k (phase0 k initState)))

/-- `generateIntelligentSchedule`: the returned `optimizedClasses` list. -/
def generateIntelligentSchedule (csv : List ClassData)
    (customTeachers : List CustomTeacher) (opts : Options)
    (suffix : Nat → String) : List SC :=
  (runState csv customTeachers opts suffix).classes

/-! ### `validateTeacherHours` -/

/-- The summed scheduled durations of `teacherName` (quarter-hours): the
`currentHours` accumulation of `validateTeacherHours`. -/
def weeklyDurationQ (scheduledClasses : List SC) (teacherName : String) : Nat :=
  ((scheduledClasses.filter (fun c =>
    decide (fullName c = teacherName))).map (·.duration)).sum

/-- `validateTeacherHours` (single-assignment validation; durations in
quarter-hours, so the 15/10-hour caps are 60/40 quarters and the
"within 3 hours" margin is 12 quarters). -/
def validateTeacherHours (scheduledClasses : List SC) (newClass : SC) : VRes :=
  let teacherName := fullName newClass
  let currentHours := weeklyDurationQ scheduledClasses teacherName
  let newTotal := currentHours + newClass.duration
  let isNewTrainer := newTrainers.any (fun n => strIncludes teacherName n)
  let maxHours : Nat := if isNewTrainer then 10 else 15
  if !(isClassAllowedAtLocation newClass.classFormat newClass.location) then
    { isValid := false, warning := none,
      error := some (newClass.classFormat ++ " is not allowed at " ++ newClass.location),
      canOverride := some false }
  else if !(canAssignClassToStudio scheduledClasses newClass.day newClass.time
      newClass.location newClass.duration) then
    { isValid := false, warning := none,
      error := some ("Studio capacity exceeded at " ++ newClass.location ++ " on " ++
        newClass.day ++ " at " ++ newClass.time ++ ". Maximum " ++
        Nat.repr (getMaxParallelClasses newClass.location) ++
        " parallel classes allowed."),
      canOverride := some false }
  else if isNewTrainer && !(newTrainerAllowedFormats.contains newClass.classFormat) then
    { isValid := false, warning := none,
      error := some (teacherName ++ " can only teach: " ++
        joinComma newTrainerAllowedFormats),
      canOverride := some false }
  else if 4 * maxHours < newTotal then
    { isValid := true,
      warning := some ("This would exceed " ++ teacherName ++ "\x27s " ++
        Nat.repr maxHours ++ "-hour weekly limit (currently " ++ fix1Q currentHours ++
        "h, would be " ++ fix1Q newTotal ++ "h)"),
      error := none, canOverride := some true }
  else if 4 * (maxHours - 3) < newTotal then
    { isValid := true,
      warning := some (teacherName ++ " would have " ++ fix1Q newTotal ++
        "h this week (approaching " ++ Nat.repr maxHours ++ "h limit)"),
      error := none, canOverride := some false }
  else { isValid := true, warning := none, error := none, canOverride := none }

/-! ### Basic lemmas -/

theorem strData_append (a b : String) : (a ++ b).data = a.data ++ b.data := rfl

theorem strAssoc (a b c : String) : a ++ b ++ c = a ++ (b ++ c) := by
  cases a with | mk la => cases b with | mk lb => cases c with | mk lc =>
  show String.mk (la ++ lb ++ lc) = String.mk (la ++ (lb ++ lc))
  exact congrArg String.mk (List.append_assoc la lb lc)

theorem length_le_one_unique {α} {l : List α} (h : l.length ≤ 1) :
    ∀ a ∈ l, ∀ b ∈ l, a = b := by
  match l with
  | [] => intro a ha; exact absurd ha (List.not_mem_nil a)
  | [x] =>
    intro a ha b hb
    rw [List.mem_singleton.mp ha, List.mem_singleton.mp hb]
  | x :: y :: t => simp at h

theorem dedupFirstAux_sub {α} [DecidableEq α] (seen : List α) (l : List α) :
    ∀ a ∈ dedupFirstAux seen l, a ∈ l := by
  induction l generalizing seen with
  | nil => intro a ha; exact absurd ha (List.not_mem_nil a)
  | cons x xs ih =>
    intro a ha
    unfold dedupFirstAux at ha
    by_cases hx : x ∈ seen
    · rw [if_pos hx] at ha
      exact List.mem_cons_of_mem x (ih seen a ha)
    · rw [if_neg hx] at ha
      rcases List.mem_cons.mp ha with h | h
      · exact h ▸ List.mem_cons_self x xs
      · exact List.mem_cons_of_mem x (ih (x :: seen) a h)

theorem dedupFirst_sub {α} [DecidableEq α] (l : List α) :
    ∀ a ∈ dedupFirst l, a ∈ l := dedupFirstAux_sub [] l

theorem dedupFirst_eq_nil {α} [DecidableEq α] {l : List α}
    (h : dedupFirst l = []) : l = [] := by
  cases l with
  | nil => rfl
  | cons x xs =>
    exfalso
    unfold dedupFirst dedupFirstAux at h
    rw [if_neg (List.not_mem_nil x)] at h
    exact List.cons_ne_nil _ _ h

/-! ### Order and valuation lemmas for `Frac` -/

theorem Frac.den_pos (a : Frac) : (0 : Int) < a.den := by
  unfold Frac.den; positivity

theorem Frac.leB_refl (a : Frac) : Frac.leB a a = true := by
  unfold Frac.leB; exact decide_eq_true le_rfl

theorem Frac.leB_total (a b : Frac) :
    Frac.leB a b = true ∨ Frac.leB b a = true := by
  unfold Frac.leB
  rcases Int.le_total (a.num * b.den) (b.num * a.den) with h | h
  · exact Or.inl (decide_eq_true h)
  · exact Or.inr (decide_eq_true h)

theorem Frac.leB_trans {a b c : Frac} (hab : Frac.leB a b = true)
    (hbc : Frac.leB b c = true) : Frac.leB a c = true := by
  unfold Frac.leB at *
  rw [decide_eq_true_eq] at *
  have hb := Frac.den_pos b
  have ha := Frac.den_pos a
  have hc := Frac.den_pos c
  nlinarith [mul_le_mul_of_nonneg_right hab (le_of_lt hc),
    mul_le_mul_of_nonneg_right hbc (le_of_lt ha)]

/-- Exact rational value of a fraction. -/
def Frac.val (a : Frac) : ℚ := (a.num : ℚ) / (a.den : ℚ)

theorem Frac.den_posQ (a : Frac) : (0 : ℚ) < (a.den : ℚ) := by
  exact_mod_cast Frac.den_pos a

theorem Frac.leB_iff (a b : Frac) : Frac.leB a b = true ↔ a.val ≤ b.val := by
  unfold Frac.leB Frac.val
  rw [decide_eq_true_eq, div_le_div_iff₀ (Frac.den_posQ a) (Frac.den_posQ b)]
  exact_mod_cast Iff.rfl

theorem Frac.val_ofInt (n : Int) : (Frac.ofInt n).val = (n : ℚ) := by
  unfold Frac.val Frac.ofInt Frac.den
  norm_num

theorem Frac.den_add (a b : Frac) : (Frac.add a b).den = a.den * b.den := by
  unfold Frac.den Frac.add
  have h : 1 ≤ (a.dm1 + 1) * (b.dm1 + 1) := Nat.one_le_iff_ne_zero.mpr (by positivity)
  rw [Nat.cast_sub h]
  push_cast
  ring

theorem Frac.val_add (a b : Frac) : (Frac.add a b).val = a.val + b.val := by
  unfold Frac.val
  rw [Frac.den_add]
  show ((a.num * b.den + b.num * a.den : Int) : ℚ) / _ = _
  have ha := Frac.den_posQ a
  have hb := Frac.den_posQ b
  push_cast
  field_simp

theorem Frac.den_divNat (a : Frac) {k : Nat} (hk : 0 < k) :
    (Frac.divNat a k).den = a.den * (k : Int) := by
  unfold Frac.den Frac.divNat
  have h : 1 ≤ (a.dm1 + 1) * k := Nat.one_le_iff_ne_zero.mpr (by positivity)
  rw [Nat.cast_sub h]
  push_cast
  ring

theorem Frac.val_divNat (a : Frac) {k : Nat} (hk : 0 < k) :
    (Frac.divNat a k).val = a.val / (k : ℚ) := by
  unfold Frac.val
  rw [Frac.den_divNat a hk]
  show ((a.num : ℚ)) / _ = _
  push_cast
  rw [div_div]

theorem Frac.le_round1_of_int (m : Int) (a : Frac) (h : (m : ℚ) ≤ a.val) :
    (m : ℚ) ≤ (Frac.round1 a).val := by
  have hd := Frac.den_pos a
  have h1 : m * a.den ≤ a.num := by
    unfold Frac.val at h
    rw [le_div_iff₀ (Frac.den_posQ a)] at h
    exact_mod_cast h
  have h2 : (10 * m) * (2 * a.den) ≤ 20 * a.num + a.den := by nlinarith
  have h3 : 10 * m ≤ (20 * a.num + a.den) / (2 * a.den) :=
    (Int.le_ediv_iff_mul_le (by positivity)).mpr h2
  have hval : (Frac.round1 a).val =
      (((20 * a.num + a.den) / (2 * a.den) : Int) : ℚ) / 10 := by
    unfold Frac.round1 Frac.val Frac.den
    norm_num
  rw [hval, le_div_iff₀ (by norm_num : (0:ℚ) < 10)]
  calc (m : ℚ) * 10 = ((10 * m : Int) : ℚ) := by push_cast; ring
  _ ≤ _ := by exact_mod_cast h3

theorem Frac.val_foldl_add (l : List Frac) (acc : Frac) :
    (l.foldl Frac.add acc).val = acc.val + (l.map Frac.val).sum := by
  induction l generalizing acc with
  | nil => simp
  | cons x t ih =>
    simp only [List.foldl_cons, List.map_cons, List.sum_cons]
    rw [ih, Frac.val_add]
    ring

theorem Frac.val_sumFrac (l : List Frac) :
    (sumFrac l).val = (l.map Frac.val).sum := by
  unfold sumFrac
  rw [Frac.val_foldl_add, Frac.val_ofInt]
  norm_num

theorem le_sum_of_all (l : List ℚ) (c : ℚ) (h : ∀ x ∈ l, c ≤ x) :
    c * l.length ≤ l.sum := by
  induction l with
  | nil => simp
  | cons x t ih =>
    have hx := h x (List.mem_cons_self x t)
    have ht := ih (fun y hy => h y (List.mem_cons_of_mem x hy))
    simp only [List.length_cons, List.sum_cons]
    push_cast
    nlinarith

/-! ### Claim theorems: slot generation (C10) -/

theorem slots_all_unrestricted (l : List String) (d : String)
    (hall : l.all (fun t => !(isTimeRestricted t "" false)) = true) :
    ∀ t ∈ l, isTimeRestricted t d false = false := by
  intro t ht
  have h := List.all_eq_true.mp hall t ht
  have h2 : isTimeRestricted t "" false = false := by
    cases hv : isTimeRestricted t "" false with
    | false => rfl
    | true => rw [hv] at h; exact absurd h (by decide)
  exact h2

/-- Claim C10: every time offered by the slot generator, for any day, lies
outside the 12:00-17:00 restricted window for public (non-private)
classes. -/
theorem getAvailableTimeSlots_unrestricted (day time : String)
    (h : time ∈ getAvailableTimeSlots day) :
    isTimeRestricted time day false = false := by
  unfold getAvailableTimeSlots at h
  split at h
  · exact slots_all_unrestricted _ day (by decide) time h
  · split at h
    · exact slots_all_unrestricted _ day (by decide) time h
    · exact slots_all_unrestricted _ day (by decide) time h

/-- Witness for C10 at a concrete day and slot. -/
theorem getAvailableTimeSlots_unrestricted_witness :
    "07:30" ∈ getAvailableTimeSlots "Monday" ∧
    isTimeRestricted "07:30" "Monday" false = false :=
  ⟨by decide, getAvailableTimeSlots_unrestricted "Monday" "07:30" (by decide)⟩

/-! ### Claim theorems: validation (C2, C4, C5) -/

/-- Claim C2: a proposed class that would push some occupied sub-slot of its
location and day past studio capacity is always rejected hard: `isValid`
false and `canOverride` false, whatever the other fields hold. -/
theorem validate_capacity_hard (scheduledClasses : List SC) (newClass : SC)
    (h : ∃ slot ∈ getOccupiedTimeSlots newClass.time newClass.duration,
      getMaxParallelClasses newClass.location ≤
        occCount scheduledClasses newClass.location newClass.day slot) :
    (validateTeacherHours scheduledClasses newClass).isValid = false ∧
    (validateTeacherHours scheduledClasses newClass).canOverride = some false := by
  obtain ⟨slot, hmem, hge⟩ := h
  have hcap : canAssignClassToStudio scheduledClasses newClass.day newClass.time
      newClass.location newClass.duration = false := by
    unfold canAssignClassToStudio
    cases hv : (getOccupiedTimeSlots newClass.time newClass.duration).all
        (fun slot => decide (occCount scheduledClasses newClass.location newClass.day
          slot < getMaxParallelClasses newClass.location)) with
    | false => rfl
    | true =>
      have := List.all_eq_true.mp hv slot hmem
      simp only [decide_eq_true_eq] at this
      omega
  unfold validateTeacherHours
  rw [hcap]
  split
  · exact ⟨rfl, rfl⟩
  · exact ⟨rfl, rfl⟩

/-- A generic scheduled class used to build concrete witness inputs. -/
def mkSC (i day time location classFormat first last : String) (durQ : Nat) : SC :=
  { id := i, day := day, time := time, location := location,
    classFormat := classFormat, teacherFirstName := first,
    teacherLastName := last, duration := durQ,
    participants := Frac.ofInt 6, revenue := Frac.ofInt 0,
    isTopPerformer := false, isPrivate := false }

/-- Existing schedule of the C2 witness: one class at a capacity-1
location. -/
def c2existing : List SC :=
  [mkSC "e" "Monday" "07:30" "Nowhere Studio" "Studio FIT" "A" "B" 4]

/-- Proposed class of the C2 witness, at the already occupied slot. -/
def c2proposed : SC :=
  mkSC "n" "Monday" "07:30" "Nowhere Studio" "Studio Mat 57" "C" "D" 4

/-- Witness for C2: one existing class at a capacity-1 location already
occupies the proposed start slot. -/
theorem validate_capacity_hard_witness :
    (∃ slot ∈ getOccupiedTimeSlots c2proposed.time c2proposed.duration,
      getMaxParallelClasses c2proposed.location ≤
        occCount c2existing c2proposed.location c2proposed.day slot) ∧
    (validateTeacherHours c2existing c2proposed).isValid = false ∧
    (validateTeacherHours c2existing c2proposed).canOverride = some false :=
  ⟨by decide, validate_capacity_hard c2existing c2proposed (by decide)⟩

theorem strExt {a b : String} (h : a.data = b.data) : a = b := by
  cases a with | mk la => cases b with | mk lb =>
  cases h
  rfl

/-- Claim C4: a non-new-tier teacher already at exactly 15 summed weekly
hours, proposing one more 1-hour class whose format is allowed at its
location and which fits studio capacity, gets a soft result: valid, with a
warning naming the 15-hour limit and the projected 16.0-hour total, and an
explicit override permission. -/
theorem validate_hour_cap_soft (scheduledClasses : List SC) (newClass : SC)
    (h1 : weeklyDurationQ scheduledClasses (fullName newClass) = 60)
    (h2 : newTrainers.any (fun n => strIncludes (fullName newClass) n) = false)
    (h3 : newClass.duration = 4)
    (h4 : isClassAllowedAtLocation newClass.classFormat newClass.location = true)
    (h5 : canAssignClassToStudio scheduledClasses newClass.day newClass.time
      newClass.location newClass.duration = true) :
    validateTeacherHours scheduledClasses newClass =
      { isValid := true,
        warning := some ("This would exceed " ++ fullName newClass ++
          "\x27s 15-hour weekly limit (currently 15.0h, would be 16.0h)"),
        error := none, canOverride := some true } := by
  have e1 : Nat.repr 15 = "15" := rfl
  have e2 : fix1Q 60 = "15.0" := rfl
  have e3 : fix1Q 64 = "16.0" := rfl
  have h5' : canAssignClassToStudio scheduledClasses newClass.day newClass.time
      newClass.location 4 = true := by rw [← h3]; exact h5
  simp only [validateTeacherHours, h1, h2, h3, h4, h5', e1, e2, e3]
  norm_num
  apply strExt
  simp only [strData_append, List.append_assoc]
  apply congrArg
  apply congrArg
  decide

/-- Witness schedule for C4: a single 15-hour block for teacher "A B". -/
def c4existing : List SC := [mkSC "e" "Monday" "07:30" "Otherplace" "Studio FIT" "A" "B" 60]

/-- Proposed class of the C4 witness: one more hour for "A B". -/
def c4proposed : SC :=
  mkSC "n" "Tuesday" "08:30" "Kwality House, Kemps Corner" "Studio Mat 57" "A" "B" 4

/-- Witness for C4 at a concrete schedule. -/
theorem validate_hour_cap_soft_witness :
    weeklyDurationQ c4existing (fullName c4proposed) = 60 ∧
    validateTeacherHours c4existing c4proposed =
      { isValid := true,
        warning := some ("This would exceed " ++ fullName c4proposed ++
          "\x27s 15-hour weekly limit (currently 15.0h, would be 16.0h)"),
        error := none, canOverride := some true } :=
  ⟨by decide, validate_hour_cap_soft c4existing c4proposed (by decide) (by decide)
    (by decide) (by decide) (by decide)⟩

/-- Claim C5: a new-tier teacher (name containing "Kabir" or "Simonelle")
proposed for a format outside the new-trainer whitelist, with the format
allowed at the location and studio capacity available, is rejected hard:
invalid and not overridable. -/
theorem validate_new_trainer_hard (scheduledClasses : List SC) (newClass : SC)
    (h1 : newTrainers.any (fun n => strIncludes (fullName newClass) n) = true)
    (h2 : newTrainerAllowedFormats.contains newClass.classFormat = false)
    (h3 : isClassAllowedAtLocation newClass.classFormat newClass.location = true)
    (h4 : canAssignClassToStudio scheduledClasses newClass.day newClass.time
      newClass.location newClass.duration = true) :
    (validateTeacherHours scheduledClasses newClass).isValid = false ∧
    (validateTeacherHours scheduledClasses newClass).canOverride = some false := by
  simp only [validateTeacherHours, h1, h2, h3, h4, Bool.not_true, Bool.true_and,
    Bool.not_false, Bool.false_eq_true, if_false, if_true]
  exact ⟨by trivial, by trivial⟩

/-- Proposed class of the C5 witness: "Kabir X" on a non-whitelisted
format. -/
def c5proposed : SC :=
  mkSC "n" "Monday" "07:30" "Kwality House, Kemps Corner" "Studio FIT" "Kabir" "X" 4

/-- Witness for C5 at a concrete proposal. -/
theorem validate_new_trainer_hard_witness :
    newTrainers.any (fun n => strIncludes (fullName c5proposed) n) = true ∧
    (validateTeacherHours [] c5proposed).isValid = false ∧
    (validateTeacherHours [] c5proposed).canOverride = some false :=
  ⟨by decide, validate_new_trainer_hard [] c5proposed (by decide) (by decide)
    (by decide) (by decide)⟩

/-! ### Claim theorems: candidate ranking (C6, C7) -/

theorem rankLE_total (a b : RankedFormat) :
    rankLE a b = true ∨ rankLE b a = true := by
  unfold rankLE
  cases ha : a.isPriority <;> cases hb : b.isPriority <;>
    simp only [Bool.not_true, Bool.not_false, Bool.and_true, Bool.and_false,
      Bool.true_and, Bool.false_and, if_true, if_false, Bool.false_eq_true,
      if_neg, ite_false, ite_true]
  · exact Frac.leB_total b.optimizationScore a.optimizationScore
  · simp
  · simp
  · exact Frac.leB_total b.optimizationScore a.optimizationScore

theorem rankLE_trans (a b c : RankedFormat) (hab : rankLE a b = true)
    (hbc : rankLE b c = true) : rankLE a c = true := by
  unfold rankLE at *
  cases ha : a.isPriority <;> cases hb : b.isPriority <;> cases hc : c.isPriority <;>
    simp only [ha, hb, hc, Bool.not_true, Bool.not_false, Bool.and_true,
      Bool.and_false, Bool.true_and, Bool.false_and, if_true, if_false,
      Bool.false_eq_true, ite_false, ite_true] at *
  · exact Frac.leB_trans hbc hab
  · exact Frac.leB_trans hbc hab

/-- The conclusions C6 draws from one ranking comparison. -/
theorem rankLE_spec {r o : RankedFormat} (h : rankLE r o = true) :
    ((r.isPriority = true ∧ o.isPriority = false) ∨
      Frac.leB o.optimizationScore r.optimizationScore = true) ∧
    (o.isPriority = true → r.isPriority = true) := by
  unfold rankLE at h
  cases hr : r.isPriority <;> cases ho : o.isPriority <;>
    simp only [hr, ho, Bool.not_true, Bool.not_false, Bool.and_true,
      Bool.and_false, Bool.true_and, Bool.false_and, if_true, if_false,
      Bool.false_eq_true, ite_false, ite_true] at h
  · exact ⟨Or.inr h, fun hc => absurd hc (by decide)⟩
  · exact ⟨Or.inl ⟨rfl, rfl⟩, fun _ => rfl⟩
  · exact ⟨Or.inr h, fun _ => rfl⟩

/-- Claim C6: `getBestClassForSlot` answers nothing exactly when the
filtered record set is empty, and otherwise its single answer beats every
candidate format: it is priority while the other is not, or it scores at
least as high; and whenever any candidate is on the day's priority list the
answer is too. -/
theorem getBestClassForSlot_spec (csv : List ClassData) (opt : Option OptType)
    (location day time : String) (g : Guidelines) :
    (getBestClassForSlot csv opt location day time g = none ↔
      slotDataFor csv location day time g = []) ∧
    (∀ r, getBestClassForSlot csv opt location day time g = some r →
      ∀ o ∈ rankedFormatsFor csv opt location day time g,
        ((r.isPriority = true ∧ o.isPriority = false) ∨
          Frac.leB o.optimizationScore r.optimizationScore = true) ∧
        (o.isPriority = true → r.isPriority = true)) := by
  haveI htot : IsTotal RankedFormat (fun a b => rankLE a b = true) := ⟨rankLE_total⟩
  haveI htr : IsTrans RankedFormat (fun a b => rankLE a b = true) :=
    ⟨fun a b c => rankLE_trans a b c⟩
  have hnonempty : slotDataFor csv location day time g ≠ [] →
      rankedFormatsFor csv opt location day time g ≠ [] := by
    intro hsd hr
    unfold rankedFormatsFor at hr
    rw [List.map_eq_nil_iff] at hr
    exact hsd (List.map_eq_nil_iff.mp (dedupFirst_eq_nil hr))
  constructor
  · unfold getBestClassForSlot
    split
    · next hempty =>
      simp only [true_iff]
      exact List.isEmpty_iff.mp hempty
    · next hne =>
      have hsd : slotDataFor csv location day time g ≠ [] := by
        intro h; exact hne (by rw [h]; rfl)
      have hr := hnonempty hsd
      constructor
      · intro hh
        exfalso
        rw [List.head?_eq_none_iff] at hh
        have hperm := List.perm_insertionSort (fun a b => rankLE a b = true)
          (rankedFormatsFor csv opt location day time g)
        rw [hh] at hperm
        exact hr hperm.symm.eq_nil
      · intro h; exact absurd h hsd
  · intro r hr o ho
    unfold getBestClassForSlot at hr
    split at hr
    · exact absurd hr (by simp)
    · have hmemS : o ∈ List.insertionSort (fun a b => rankLE a b = true)
          (rankedFormatsFor csv opt location day time g) :=
        ((List.perm_insertionSort _ _).mem_iff).mpr ho
      have hsorted := List.sorted_insertionSort (fun a b => rankLE a b = true)
        (rankedFormatsFor csv opt location day time g)
      cases hS : List.insertionSort (fun a b => rankLE a b = true)
          (rankedFormatsFor csv opt location day time g) with
      | nil => rw [hS] at hr; exact absurd hr (by simp)
      | cons x t =>
        rw [hS] at hr hmemS hsorted
        have hx : x = r := by simpa using hr
        subst hx
        rcases List.mem_cons.mp hmemS with h | h
        · subst h
          exact ⟨Or.inr (Frac.leB_refl _), fun hp => hp⟩
        · exact rankLE_spec (List.rel_of_sorted_cons hsorted o h)

/-- A generic historical record used to build concrete inputs. -/
def mkCD (format location day time teacher : String) (p rev : Int) : ClassData :=
  { cleanedClass := format, location := location, dayOfWeek := day,
    classTime := time, teacherName := teacher,
    participants := Frac.ofInt p, totalRevenue := Frac.ofInt rev }

/-- A placeholder ranked format for indexing fallbacks. -/
def rfDummy : RankedFormat :=
  { classFormat := "", avgParticipants := Frac.ofInt 0,
    avgRevenue := Frac.ofInt 0, count := 0, isPriority := false,
    optimizationScore := Frac.ofInt 0 }

/-- Historical data of the C6 witness: two candidate formats at the same
slot. -/
def csv6 : List ClassData :=
  [mkCD "Studio FIT" "Kwality House, Kemps Corner" "Monday" "07:30" "T One" 9 100,
   mkCD "Studio Mat 57" "Kwality House, Kemps Corner" "Monday" "07:30" "T One" 7 100]

/-- The returned top format of the C6 witness. -/
def c6r : RankedFormat :=
  (getBestClassForSlot csv6 none "Kwality House, Kemps Corner" "Monday" "07:30"
    (getDayGuidelines "Monday")).getD rfDummy

/-- The runner-up candidate of the C6 witness. -/
def c6o : RankedFormat :=
  (rankedFormatsFor csv6 none "Kwality House, Kemps Corner" "Monday" "07:30"
    (getDayGuidelines "Monday")).getD 1 rfDummy

/-- Witness for C6 on two concrete competing formats. -/
theorem getBestClassForSlot_spec_witness :
    getBestClassForSlot csv6 none "Kwality House, Kemps Corner" "Monday" "07:30"
      (getDayGuidelines "Monday") = some c6r ∧
    c6o ∈ rankedFormatsFor csv6 none "Kwality House, Kemps Corner" "Monday" "07:30"
      (getDayGuidelines "Monday") ∧
    (((c6r.isPriority = true ∧ c6o.isPriority = false) ∨
      Frac.leB c6o.optimizationScore c6r.optimizationScore = true) ∧
     (c6o.isPriority = true → c6r.isPriority = true)) :=
  ⟨by decide, by decide,
    (getBestClassForSlot_spec csv6 none "Kwality House, Kemps Corner" "Monday"
      "07:30" (getDayGuidelines "Monday")).2 c6r (by decide) c6o (by decide)⟩

theorem slotDataFor_participants {csv : List ClassData}
    {location day time : String} {g : Guidelines} {r : ClassData}
    (h : r ∈ slotDataFor csv location day time g) :
    Frac.leB (Frac.ofInt 5) r.participants = true := by
  unfold slotDataFor at h
  have hp := (List.mem_filter.mp h).2
  simp only [Bool.and_eq_true] at hp
  exact hp.2

theorem rankedFormatsFor_avg_ge {csv : List ClassData} {opt : Option OptType}
    {location day time : String} {g : Guidelines} {o : RankedFormat}
    (h : o ∈ rankedFormatsFor csv opt location day time g) :
    Frac.leB (Frac.ofInt 5) o.avgParticipants = true := by
  unfold rankedFormatsFor at h
  obtain ⟨f, hf, rfl⟩ := List.mem_map.mp h
  have hf' : f ∈ (slotDataFor csv location day time g).map (·.cleanedClass) :=
    dedupFirst_sub _ f hf
  obtain ⟨rec, hrec, hfc⟩ := List.mem_map.mp hf'
  have hmem : rec ∈ (slotDataFor csv location day time g).filter
      (fun r => decide (r.cleanedClass = f)) :=
    List.mem_filter.mpr ⟨hrec, decide_eq_true hfc⟩
  have hlen : 0 < ((slotDataFor csv location day time g).filter
      (fun r => decide (r.cleanedClass = f))).length :=
    List.length_pos.mpr (List.ne_nil_of_mem hmem)
  show Frac.leB (Frac.ofInt 5) (Frac.round1 (Frac.divNat
    (sumFrac (((slotDataFor csv location day time g).filter
      (fun r => decide (r.cleanedClass = f))).map (·.participants)))
    ((slotDataFor csv location day time g).filter
      (fun r => decide (r.cleanedClass = f))).length)) = true
  rw [Frac.leB_iff, Frac.val_ofInt]
  apply Frac.le_round1_of_int
  rw [Frac.val_divNat _ hlen, Frac.val_sumFrac]
  rw [le_div_iff₀ (by exact_mod_cast hlen : (0:ℚ) <
    (((slotDataFor csv location day time g).filter
      (fun r => decide (r.cleanedClass = f))).length : ℚ))]
  have hall : ∀ x ∈ ((((slotDataFor csv location day time g).filter
      (fun r => decide (r.cleanedClass = f))).map (·.participants)).map Frac.val),
      ((5:Int):ℚ) ≤ x := by
    intro x hx
    obtain ⟨p, hp, rfl⟩ := List.mem_map.mp hx
    obtain ⟨rec', hrec', rfl⟩ := List.mem_map.mp hp
    have hrec2 : rec' ∈ slotDataFor csv location day time g :=
      List.mem_of_mem_filter hrec'
    have h5 := slotDataFor_participants hrec2
    rw [Frac.leB_iff, Frac.val_ofInt] at h5
    exact h5
  have := le_sum_of_all _ ((5:Int):ℚ) hall
  simp only [List.length_map] at this
  exact this

/-- Amended claim C7: the format `getBestClassForSlot` returns has average
participants at least 5.0 over the records it aggregates — the matching
records that individually carry at least 5 participants (the source
threshold is per record, not on the average over all matching records). -/
theorem getBestClassForSlot_min_avg (csv : List ClassData) (opt : Option OptType)
    (location day time : String) (g : Guidelines) (r : RankedFormat)
    (h : getBestClassForSlot csv opt location day time g = some r) :
    Frac.leB (Frac.ofInt 5) r.avgParticipants = true := by
  unfold getBestClassForSlot at h
  split at h
  · exact absurd h (by simp)
  · have hmem : r ∈ List.insertionSort (fun a b => rankLE a b = true)
        (rankedFormatsFor csv opt location day time g) :=
      List.mem_of_mem_head? (by rw [h]; rfl)
    exact rankedFormatsFor_avg_ge
      (((List.perm_insertionSort _ _).mem_iff).mp hmem)

/-- The claim's matching-record set for C7: same location, day and time,
not hosted, allowed at the location, not on the day's avoid list — with no
participant threshold.  Formalized from the claim's wording in order to
compare it with what the source computes. -/
def matchingRecords (csv : List ClassData) (location day time : String)
    (g : Guidelines) : List ClassData :=
  csv.filter (fun r =>
    decide (r.location = location) && decide (r.dayOfWeek = day) &&
    strIncludes r.classTime (strTake5 time) &&
    !(isHostedClass r.cleanedClass) &&
    isClassAllowedAtLocation r.cleanedClass location &&
    !(g.avoid.contains r.cleanedClass))

/-- The claim's historical average participant count of format `f` over its
matching records. -/
def claimHistAvg (csv : List ClassData) (location day time : String)
    (g : Guidelines) (f : String) : Frac :=
  let recs := (matchingRecords csv location day time g).filter
    (fun r => decide (r.cleanedClass = f))
  Frac.divNat (sumFrac (recs.map (·.participants))) recs.length

/-- Historical data refuting C7 as stated: two matching records for the
same format, with 5 and 1 participants. -/
def csv7 : List ClassData :=
  [mkCD "Studio FIT" "Kwality House, Kemps Corner" "Monday" "07:30" "T One" 5 100,
   mkCD "Studio FIT" "Kwality House, Kemps Corner" "Monday" "07:30" "T One" 1 100]

/-- Counterexample to C7 as stated: on `csv7` the returned format is
Studio FIT, whose average participant count over its matching records is
3, below the 5.0 threshold (the source filters records below 5 participants
out before averaging instead of thresholding the average). -/
theorem getBestClassForSlot_min_avg_counterexample :
    (getBestClassForSlot csv7 none "Kwality House, Kemps Corner" "Monday" "07:30"
      (getDayGuidelines "Monday")).map (·.classFormat) = some "Studio FIT" ∧
    Frac.ltB (claimHistAvg csv7 "Kwality House, Kemps Corner" "Monday" "07:30"
      (getDayGuidelines "Monday") "Studio FIT") (Frac.ofInt 5) = true := by
  decide

/-- The returned format of the C7 witness run. -/
def c7r : RankedFormat :=
  (getBestClassForSlot csv7 none "Kwality House, Kemps Corner" "Monday" "07:30"
    (getDayGuidelines "Monday")).getD rfDummy

/-- Witness for the amended C7 on a concrete input. -/
theorem getBestClassForSlot_min_avg_witness :
    getBestClassForSlot csv7 none "Kwality House, Kemps Corner" "Monday" "07:30"
      (getDayGuidelines "Monday") = some c7r ∧
    Frac.leB (Frac.ofInt 5) c7r.avgParticipants = true :=
  ⟨by decide, getBestClassForSlot_min_avg csv7 none "Kwality House, Kemps Corner"
    "Monday" "07:30" (getDayGuidelines "Monday") c7r (by decide)⟩

/-! ### Reachability: every class the run commits passes through
`assignClass` guarded by `canAssignTeacher` on the same state. -/

/-- One construction step: either nothing happens, or a class for a tracked
teacher passing `canAssignTeacher` is handed to `assignClass` (which itself
rechecks studio capacity). -/
def Step (k : Ctx) (s s' : BuildState) : Prop :=
  s' = s ∨ ∃ cd teacher, teacher ∈ k.allTs ∧
    canAssignTeacher k.days s teacher cd.day cd.time
      (getClassDuration cd.classFormat) cd.classFormat cd.location = true ∧
    s' = (assignClass k.suffix s cd teacher).1

/-- Reflexive-transitive closure of `Step`. -/
def Star (k : Ctx) : BuildState → BuildState → Prop :=
  Relation.ReflTransGen (Step k)

theorem star_refl (k : Ctx) (s : BuildState) : Star k s s :=
  Relation.ReflTransGen.refl

theorem star_trans {k : Ctx} {a b c : BuildState} (h1 : Star k a b)
    (h2 : Star k b c) : Star k a c :=
  Relation.ReflTransGen.trans h1 h2

theorem step_star {k : Ctx} {s s' : BuildState} (h : Step k s s') : Star k s s' :=
  Relation.ReflTransGen.single h

theorem assign_star (k : Ctx) (s : BuildState) (cd : AssignData)
    (teacher : String) (ht : teacher ∈ k.allTs)
    (hc : canAssignTeacher k.days s teacher cd.day cd.time
      (getClassDuration cd.classFormat) cd.classFormat cd.location = true) :
    Star k s (assignClass k.suffix s cd teacher).1 :=
  step_star (Or.inr ⟨cd, teacher, ht, hc, rfl⟩)

theorem findBest_mem_can {csv : List ClassData} {days allTs : List String}
    {st : BuildState} {classFormat location day time t : String}
    (h : findBestTeacherForClass csv days allTs st classFormat location day time =
      some t) :
    t ∈ allTs ∧ canAssignTeacher days st t day time
      (getClassDuration classFormat) classFormat location = true := by
  unfold findBestTeacherForClass at h
  dsimp only at h
  split at h
  · exact absurd h (by simp)
  · obtain ⟨p, hp, hpt⟩ := Option.map_eq_some'.mp h
    have hmem : p ∈ List.insertionSort (fun a b : String × Nat => b.2 ≤ a.2) _ :=
      List.mem_of_mem_head? (by rw [hp]; rfl)
    have hmem2 := ((List.perm_insertionSort _ _).mem_iff).mp hmem
    obtain ⟨t', ht', hpair⟩ := List.mem_map.mp hmem2
    have hfil := List.mem_filter.mp ht'
    have ht'' : t' = t := by rw [← hpt, ← hpair]
    exact ht'' ▸ ⟨hfil.1, hfil.2⟩

theorem foldl_star_mem {k : Ctx} {α} (l : List α)
    (f : BuildState → α → BuildState)
    (hf : ∀ s x, x ∈ l → Star k s (f s x)) :
    ∀ s, Star k s (l.foldl f s) := by
  induction l with
  | nil => intro s; exact star_refl k s
  | cons x xs ih =>
    intro s
    exact star_trans (hf s x (List.mem_cons_self x xs))
      (ih (fun s y hy => hf s y (List.mem_cons_of_mem x hy)) (f s x))

theorem phase0_star (k : Ctx)
    (hdef : ∀ dc ∈ getDefaultTopClasses, dc.teacher ∈ k.allTs) :
    ∀ s, Star k s (phase0 k s) := by
  unfold phase0
  apply foldl_star_mem
  intro s dc hdc
  split
  · exact star_refl k s
  · split
    · next hc => exact assign_star k s _ dc.teacher (hdef dc hdc) hc
    · exact star_refl k s

theorem phase1_star (k : Ctx) : ∀ s, Star k s (phase1 k s) := by
  unfold phase1
  apply foldl_star_mem
  intro s day _
  split
  · exact star_refl k s
  · split
    · exact star_refl k s
    · split
      · exact star_refl k s
      · next bestClass _ =>
        split
        · exact star_refl k s
        · next bestTeacher hbt =>
          obtain ⟨hmem, hcan⟩ := findBest_mem_can hbt
          exact assign_star k s
            { classFormat := bestClass.classFormat,
              location := "Kwality House, Kemps Corner", day := day,
              time := "07:30", avgParticipants := bestClass.avgParticipants,
              avgRevenue := bestClass.avgRevenue } bestTeacher hmem hcan

theorem p2attempts_star (k : Ctx) (day location time : String)
    (g : Guidelines) :
    ∀ n s cnt, Star k s (p2attempts k day location time g n s cnt).1 := by
  intro n
  induction n with
  | zero => intro s cnt; exact star_refl k s
  | succ m ih =>
    intro s cnt
    unfold p2attempts
    split
    · exact star_refl k s
    · split
      · exact ih s cnt
      · next bestClass _ =>
        dsimp only
        split
        · exact ih s cnt
        · split
          · exact ih s cnt
          · next bestTeacher hbt =>
            obtain ⟨hmem, hcan⟩ := findBest_mem_can hbt
            have hstep := assign_star k s
              { classFormat := bestClass.classFormat, location := location,
                day := day, time := time,
                avgParticipants := bestClass.avgParticipants,
                avgRevenue := bestClass.avgRevenue } bestTeacher hmem hcan
            split
            · exact star_trans hstep (ih _ _)
            · exact hstep

theorem p2times_star (k : Ctx) (day location : String) (g : Guidelines)
    (maxC : Nat) :
    ∀ slots s cnt, Star k s (p2times k day location g maxC slots s cnt).1 := by
  intro slots
  induction slots with
  | nil => intro s cnt; exact star_refl k s
  | cons time rest ih =>
    intro s cnt
    unfold p2times
    split
    · exact star_refl k s
    · exact star_trans (p2attempts_star k day location time g _ s cnt) (ih _ _)

theorem phase2day_star (k : Ctx) : ∀ s day, Star k s (phase2day k s day) := by
  intro s day
  unfold phase2day
  dsimp only
  have hgen : ∀ (ls : List String) (p : BuildState × Nat),
      Star k p.1 ((ls.foldl (fun p location =>
        p2times k day location (getDayGuidelines day)
          (if day = "Sunday" then 5
           else (getAvailableTimeSlots day).length * engineLocations.length)
          (getAvailableTimeSlots day) p.1 p.2) p).1) := by
    intro ls
    induction ls with
    | nil => intro p; exact star_refl k p.1
    | cons location rest ih =>
      intro p
      exact star_trans (p2times_star k day location _ _ _ p.1 p.2) (ih _)
  exact hgen engineLocations
    (s, (List.filter (fun c => decide (c.day = day)) s.classes).length)

theorem phase2_star (k : Ctx) : ∀ s, Star k s (phase2 k s) := by
  unfold phase2
  apply foldl_star_mem
  intro s day _
  exact phase2day_star k s day

theorem p3times_star (k : Ctx) (teacher : String) (sp : Specialty)
    (day location : String) (ht : teacher ∈ k.allTs) :
    ∀ slots s, Star k s (p3times k teacher sp day location slots s) := by
  intro slots
  induction slots with
  | nil => intro s; exact star_refl k s
  | cons time rest ih =>
    intro s
    unfold p3times
    dsimp only
    split
    · exact ih s
    · split
      · exact ih s
      · split
        · next hcan =>
          have hstep := assign_star k s
            { classFormat := sp.classFormat, location := location, day := day,
              time := time, avgParticipants := sp.avgParticipants,
              avgRevenue := Frac.ofInt 0 } teacher ht hcan
          split
          · exact hstep
          · exact star_trans hstep (ih _)
        · exact ih s

theorem p3locs_star (k : Ctx) (teacher : String) (sp : Specialty)
    (peakOnly : Bool) (ht : teacher ∈ k.allTs) :
    ∀ s, Star k s (p3locs k teacher sp peakOnly s) := by
  intro s
  unfold p3locs
  apply foldl_star_mem
  intro s1 location _
  split
  · exact star_refl k s1
  · apply foldl_star_mem
    intro s2 day _
    split
    · exact star_refl k s2
    · exact p3times_star k teacher sp day location ht _ s2

theorem p3specs_star (k : Ctx) (teacher : String) (target20 : Nat)
    (peakOnly : Bool) (ht : teacher ∈ k.allTs) :
    ∀ specs s, Star k s (p3specs k teacher target20 peakOnly specs s) := by
  intro specs
  induction specs with
  | nil => intro s; exact star_refl k s
  | cons sp rest ih =>
    intro s
    unfold p3specs
    split
    · exact star_refl k s
    · exact star_trans (p3locs_star k teacher sp peakOnly ht s) (ih _)

theorem phase3_star (k : Ctx) : ∀ s, Star k s (phase3 k s) := by
  unfold phase3
  apply foldl_star_mem
  intro s teacher hmem
  unfold phase3teacher
  dsimp only
  split <;>
    [skip; skip] <;> split <;>
    first
      | exact p3specs_star k teacher _ true hmem _ s
      | (split <;>
          first
            | exact p3specs_star k teacher _ false hmem _ s
            | exact star_refl k s)

theorem dedupFirstAux_mem {α} [DecidableEq α] :
    ∀ (seen l : List α) (a : α), a ∈ l → a ∈ seen ∨ a ∈ dedupFirstAux seen l := by
  intro seen l
  induction l generalizing seen with
  | nil => intro a ha; exact absurd ha (List.not_mem_nil a)
  | cons x xs ih =>
    intro a ha
    unfold dedupFirstAux
    by_cases hx : x ∈ seen
    · rw [if_pos hx]
      rcases List.mem_cons.mp ha with h | h
      · exact Or.inl (h ▸ hx)
      · exact ih seen a h
    · rw [if_neg hx]
      rcases List.mem_cons.mp ha with h | h
      · exact Or.inr (h ▸ List.mem_cons_self x _)
      · rcases ih (x :: seen) a h with h' | h'
        · rcases List.mem_cons.mp h' with h'' | h''
          · exact Or.inr (h'' ▸ List.mem_cons_self x _)
          · exact Or.inl h''
        · exact Or.inr (List.mem_cons_of_mem x h')

theorem mem_dedupFirst {α} [DecidableEq α] {l : List α} {a : α} (h : a ∈ l) :
    a ∈ dedupFirst l := by
  rcases dedupFirstAux_mem [] l a h with h' | h'
  · exact absurd h' (List.not_mem_nil a)
  · exact h'

theorem mem_sortStr {l : List String} {a : String} (h : a ∈ l) :
    a ∈ sortStr l :=
  ((List.perm_insertionSort _ _).mem_iff).mpr h

theorem default_teachers_mem (csv : List ClassData)
    (customTeachers : List CustomTeacher) :
    ∀ dc ∈ getDefaultTopClasses, dc.teacher ∈ getUniqueTeachers csv customTeachers := by
  intro dc hdc
  unfold getUniqueTeachers
  apply mem_sortStr
  apply mem_dedupFirst
  refine List.mem_append.mpr (Or.inr ?_)
  exact List.mem_map.mpr ⟨dc, hdc, rfl⟩

/-- The final state of a run is `Star`-reachable from the empty state. -/
theorem runState_star (csv : List ClassData) (customTeachers : List CustomTeacher)
    (opts : Options) (suffix : Nat → String) :
    Star (mkCtx csv customTeachers opts suffix) initState
      (runState csv customTeachers opts suffix) := by
  unfold runState
  dsimp only
  exact star_trans (star_trans (star_trans
    (phase0_star _ (default_teachers_mem csv customTeachers) initState)
    (phase1_star _ _)) (phase2_star _ _)) (phase3_star _ _)

/-! ### Claim C1: studio capacity invariant -/

/-- The capacity invariant over the accumulated classes. -/
def CapInv (s : BuildState) : Prop :=
  ∀ location day slot,
    occCount s.classes location day slot ≤ getMaxParallelClasses location

theorem capInv_init : CapInv initState := by
  intro location day slot
  show List.countP _ [] ≤ _
  simp

/-- Appending one class that passed the studio-capacity check preserves the
capacity bound. -/
theorem capInv_assign (s : BuildState) (cd : AssignData) (sc : SC)
    (hl : sc.location = cd.location) (hd : sc.day = cd.day)
    (htm : sc.time = cd.time)
    (hdur : sc.duration = getClassDuration cd.classFormat)
    (hcap : canAssignClassToStudio s.classes cd.day cd.time cd.location
      (getClassDuration cd.classFormat) = true) (hs : CapInv s) :
    ∀ location day slot, occCount (s.classes ++ [sc]) location day slot ≤
      getMaxParallelClasses location := by
  intro location day slot
  unfold occCount
  rw [List.countP_append, List.countP_cons, List.countP_nil]
  have hbase := hs location day slot
  unfold occCount at hbase
  by_cases hm : (decide (sc.location = location) && decide (sc.day = day) &&
      (getOccupiedTimeSlots sc.time sc.duration).contains slot) = true
  · simp only [Bool.and_eq_true, decide_eq_true_eq] at hm
    obtain ⟨⟨e1, e2⟩, e3⟩ := hm
    have l1 : location = cd.location := e1 ▸ hl
    have l2 : day = cd.day := e2 ▸ hd
    subst l1 l2
    have hslot : slot ∈ getOccupiedTimeSlots cd.time
        (getClassDuration cd.classFormat) := by
      rw [← htm, ← hdur]
      exact List.mem_of_elem_eq_true e3
    have hlt : occCount s.classes cd.location cd.day slot <
        getMaxParallelClasses cd.location := by
      unfold canAssignClassToStudio at hcap
      have := List.all_eq_true.mp hcap slot hslot
      simpa using this
    unfold occCount at hlt
    have hite : (if (decide (sc.location = cd.location) &&
        decide (sc.day = cd.day) &&
        (getOccupiedTimeSlots sc.time sc.duration).contains slot) = true
        then 1 else 0) ≤ 1 := by
      split <;> omega
    omega
  · rw [if_neg hm]
    omega

theorem capInv_step {k : Ctx} {s s' : BuildState} (h : Step k s s')
    (hs : CapInv s) : CapInv s' := by
  rcases h with rfl | ⟨cd, teacher, -, -, rfl⟩
  · exact hs
  · unfold assignClass
    dsimp only
    by_cases hcap' : canAssignClassToStudio s.classes cd.day cd.time cd.location
        (getClassDuration cd.classFormat) = true
    case neg =>
      have hb : canAssignClassToStudio s.classes cd.day cd.time cd.location
          (getClassDuration cd.classFormat) = false := by
        rcases h' : canAssignClassToStudio s.classes cd.day cd.time cd.location
          (getClassDuration cd.classFormat) with _ | _
        · rfl
        · exact absurd h' hcap'
      simp only [hb, Bool.not_false, eq_self_iff_true, if_true]
      exact hs
    case pos =>
      simp only [hcap', Bool.not_true, Bool.false_eq_true, if_false]
      exact capInv_assign s cd _ rfl rfl rfl rfl hcap' hs

theorem capInv_star {k : Ctx} {s s' : BuildState} (h : Star k s s')
    (hs : CapInv s) : CapInv s' := by
  induction h with
  | refl => exact hs
  | tail _ hstep ih => exact capInv_step hstep ih

/-- Claim C1: in every generated schedule, for every location, day and
30-minute sub-slot, the number of assignments occupying that sub-slot never
exceeds the location's parallel-studio capacity; and the capacity table is
3 for Supreme HQ, 2 for Kwality House and Kenkere House, 1 otherwise. -/
theorem generateIntelligentSchedule_capacity (csv : List ClassData)
    (customTeachers : List CustomTeacher) (opts : Options)
    (suffix : Nat → String) :
    (∀ location day slot,
      occCount (generateIntelligentSchedule csv customTeachers opts suffix)
        location day slot ≤ getMaxParallelClasses location) ∧
    getMaxParallelClasses "Supreme HQ, Bandra" = 3 ∧
    getMaxParallelClasses "Kwality House, Kemps Corner" = 2 ∧
    getMaxParallelClasses "Kenkere House" = 2 ∧
    (∀ location, location ≠ "Supreme HQ, Bandra" →
      location ≠ "Kwality House, Kemps Corner" → location ≠ "Kenkere House" →
      getMaxParallelClasses location = 1) := by
  refine ⟨?_, rfl, rfl, rfl, ?_⟩
  · exact capInv_star (runState_star csv customTeachers opts suffix) capInv_init
  · intro location h1 h2 h3
    unfold getMaxParallelClasses
    rw [if_neg h1, if_neg h2, if_neg h3]

/-- Witness for C1 (its final conjunct carries hypotheses): the capacity
table on a fresh location, and the bound at a concrete slot of a concrete
run. -/
theorem generateIntelligentSchedule_capacity_witness :
    getMaxParallelClasses "Somewhere Else" = 1 ∧
    occCount (generateIntelligentSchedule [] []
        { targetDay := some "Monday" } (fun _ => "t"))
      "Kwality House, Kemps Corner" "Monday" "07:30" ≤
      getMaxParallelClasses "Kwality House, Kemps Corner" :=
  ⟨(generateIntelligentSchedule_capacity [] [] { targetDay := some "Monday" }
      (fun _ => "t")).2.2.2.2 "Somewhere Else" (by decide) (by decide) (by decide),
   (generateIntelligentSchedule_capacity [] [] { targetDay := some "Monday" }
      (fun _ => "t")).1 "Kwality House, Kemps Corner" "Monday" "07:30"⟩

/-! ### Name splitting and reconstruction -/

theorem splitOnCharL_ne_nil (c : Char) : ∀ l, splitOnCharL c l ≠ []
  | [] => by simp [splitOnCharL]
  | x :: xs => by
    unfold splitOnCharL
    split <;> simp

theorem joinCharL_splitOnCharL (c : Char) : ∀ l, joinCharL c (splitOnCharL c l) = l
  | [] => rfl
  | x :: xs => by
    have ih := joinCharL_splitOnCharL c xs
    unfold splitOnCharL
    rcases hr : splitOnCharL c xs with _ | ⟨hd, tl⟩
    · exact absurd hr (splitOnCharL_ne_nil c xs)
    · rw [hr] at ih
      rcases hx : decide (x = c) with _ | _
      · dsimp only
        rcases tl with _ | ⟨t0, ts⟩
        · show x :: hd = x :: xs
          rw [← ih]
          rfl
        · show (x :: hd) ++ c :: joinCharL c (t0 :: ts) = x :: xs
          rw [← ih]
          rfl
      · dsimp only
        show c :: joinCharL c (hd :: tl) = x :: xs
        rw [ih, of_decide_eq_true hx]

theorem joinSpace_map_mk : ∀ (ls : List (List Char)),
    joinSpace (ls.map String.mk) = String.mk (joinCharL ' ' ls)
  | [] => rfl
  | [_] => rfl
  | l :: l2 :: ls => by
    have ih := joinSpace_map_mk (l2 :: ls)
    show String.mk l ++ " " ++ joinSpace ((l2 :: ls).map String.mk) = _
    rw [ih]
    apply strExt
    show (l ++ [' ']) ++ joinCharL ' ' (l2 :: ls) = l ++ ' ' :: joinCharL ' ' (l2 :: ls)
    simp

/-- First-name/last-name reconstruction is the identity on every name whose
space-split has at least two parts. -/
theorem splitSpace_reconstruct (t : String) (h : 2 ≤ (splitSpace t).length) :
    (splitSpace t).headD "" ++ " " ++ joinSpace ((splitSpace t).drop 1) = t := by
  unfold splitSpace at *
  rcases hps : splitOnCharL ' ' t.data with _ | ⟨p0, ps⟩
  · exact absurd hps (splitOnCharL_ne_nil ' ' t.data)
  · rcases ps with _ | ⟨p1, rest⟩
    · rw [hps] at h; simp at h
    · show String.mk p0 ++ " " ++ joinSpace ((p1 :: rest).map String.mk) = t
      rw [joinSpace_map_mk]
      apply strExt
      have hj := joinCharL_splitOnCharL ' ' t.data
      rw [hps] at hj
      show (p0 ++ [' ']) ++ joinCharL ' ' (p1 :: rest) = t.data
      rw [← hj]
      show (p0 ++ [' ']) ++ joinCharL ' ' (p1 :: rest) =
        p0 ++ ' ' :: joinCharL ' ' (p1 :: rest)
      simp

/-- A successful `canAssignTeacher` check implies the daily-class counter is
below 4. -/
theorem canAssignTeacher_count {days : List String} {st : BuildState}
    {teacherName day time : String} {durQ : Nat} {classFormat location : String}
    (hc : canAssignTeacher days st teacherName day time durQ classFormat location =
      true) :
    st.countD teacherName day < 4 := by
  by_contra hge
  push_neg at hge
  suffices hfalse : canAssignTeacher days st teacherName day time durQ classFormat
      location = false by
    rw [hfalse] at hc; exact absurd hc (by decide)
  unfold canAssignTeacher
  dsimp only
  split_ifs <;> rfl

/-- A successful `canAssignTeacher` check implies the consecutive-run count
with the new time is at most 2. -/
theorem canAssignTeacher_consec {days : List String} {st : BuildState}
    {teacherName day time : String} {durQ : Nat} {classFormat location : String}
    (hc : canAssignTeacher days st teacherName day time durQ classFormat location =
      true) :
    getConsecutiveClassesCount st.classes teacherName day time ≤ 2 := by
  by_contra hge
  push_neg at hge
  suffices hfalse : canAssignTeacher days st teacherName day time durQ classFormat
      location = false by
    rw [hfalse] at hc; exact absurd hc (by decide)
  unfold canAssignTeacher
  dsimp only
  split_ifs <;> rfl

/-- A successful `canAssignTeacher` check implies the teacher's tracked
location list for that day is empty or already contains this location. -/
theorem canAssignTeacher_locs {days : List String} {st : BuildState}
    {teacherName day time : String} {durQ : Nat} {classFormat location : String}
    (hc : canAssignTeacher days st teacherName day time durQ classFormat location =
      true) :
    st.locsD teacherName day = [] ∨ location ∈ st.locsD teacherName day := by
  by_contra hno
  push_neg at hno
  obtain ⟨hne, hnotmem⟩ := hno
  suffices hfalse : canAssignTeacher days st teacherName day time durQ classFormat
      location = false by
    rw [hfalse] at hc; exact absurd hc (by decide)
  unfold canAssignTeacher
  dsimp only
  split_ifs <;> first | rfl | skip
  all_goals
    rename_i hlocs _
  all_goals
    exfalso
    apply hlocs
    rw [Bool.and_eq_true]
    constructor
  all_goals
    first
      | (rcases hie : (st.locsD teacherName day).isEmpty with _ | _
         · rfl
         · exact absurd (List.isEmpty_iff.mp hie) hne)
      | (rcases hcont : (st.locsD teacherName day).contains location with _ | _
         · rfl
         · exact absurd (List.mem_of_elem_eq_true hcont) hnotmem)

/-! ### Claims C8 and C9: per-teacher invariants -/

/-- The teacher-tracking invariant: the daily class counter counts exactly
the classes carrying that reconstructed teacher name, stays at most 4, the
location tracker covers every class's location and holds at most one
location, and the consecutive-run bound holds. -/
def TeachInv (s : BuildState) : Prop :=
  (∀ t d, s.countD t d = (timesOf s.classes t d).length) ∧
  (∀ t d, s.countD t d ≤ 4) ∧
  (∀ c ∈ s.classes, c.location ∈ s.locsD (fullName c) c.day) ∧
  (∀ t d, (s.locsD t d).length ≤ 1) ∧
  (∀ t d, maxRunSorted (sortStr (timesOf s.classes t d)) ≤ 2)

theorem teachInv_init : TeachInv initState := by
  refine ⟨fun t d => rfl, fun t d => Nat.zero_le 4, ?_, fun t d => Nat.zero_le 1, ?_⟩
  · intro c hc
    exact absurd hc (List.not_mem_nil c)
  · intro t d
    show maxRunSorted (sortStr []) ≤ 2
    decide

theorem timesOf_append (l1 l2 : List SC) (t d : String) :
    timesOf (l1 ++ l2) t d = timesOf l1 t d ++ timesOf l2 t d := by
  unfold timesOf
  rw [List.filter_append, List.map_append]

theorem timesOf_singleton_pos {sc : SC} {t d : String} (h1 : fullName sc = t)
    (h2 : sc.day = d) : timesOf [sc] t d = [sc.time] := by
  unfold timesOf
  rw [List.filter_cons]
  simp [h1, h2]

theorem timesOf_singleton_neg {sc : SC} {t d : String}
    (h : ¬(fullName sc = t ∧ sc.day = d)) : timesOf [sc] t d = [] := by
  unfold timesOf
  rw [List.filter_cons]
  have : (decide (fullName sc = t) && decide (sc.day = d)) = false := by
    rcases not_and_or.mp h with h' | h' <;> simp [h']
  rw [this]
  rfl

/-- Appending one class for `teacher` that passed `canAssignTeacher`
preserves the teacher-tracking invariant. -/
theorem teachInv_assign (s : BuildState) (cd : AssignData) (teacher : String)
    (sc : SC)
    (hw : String → Nat) (hd2 : String → String → Nat)
    (sm se : String → String → Bool)
    (hname : fullName sc = teacher) (hd : sc.day = cd.day)
    (hl : sc.location = cd.location) (htm : sc.time = cd.time)
    (hcount : s.countD teacher cd.day < 4)
    (hcons : getConsecutiveClassesCount s.classes teacher cd.day cd.time ≤ 2)
    (hlocs : s.locsD teacher cd.day = [] ∨ cd.location ∈ s.locsD teacher cd.day)
    (hs : TeachInv s) :
    TeachInv
      { classes := s.classes ++ [sc],
        hoursW := hw, hoursD := hd2,
        countD := upd2 s.countD teacher cd.day (s.countD teacher cd.day + 1),
        shiftM := sm, shiftE := se,
        locsD := if (s.locsD teacher cd.day).contains cd.location = true
          then s.locsD
          else upd2 s.locsD teacher cd.day
            (s.locsD teacher cd.day ++ [cd.location]) } := by
  obtain ⟨ha, hb, hcc, hdd, he⟩ := hs
  refine ⟨?_, ?_, ?_, ?_, ?_⟩
  · intro t d
    show upd2 s.countD teacher cd.day (s.countD teacher cd.day + 1) t d =
      (timesOf (s.classes ++ [sc]) t d).length
    rw [timesOf_append]
    unfold upd2
    by_cases hk : t = teacher ∧ d = cd.day
    · rw [if_pos hk]
      obtain ⟨hk1, hk2⟩ := hk
      rw [hk1, hk2, timesOf_singleton_pos hname hd]
      rw [List.length_append, ha teacher cd.day]
      rfl
    · rw [if_neg hk, timesOf_singleton_neg ?hne]
      case hne =>
        intro ⟨hn1, hn2⟩
        exact hk ⟨by rw [← hn1, hname], by rw [← hn2, hd]⟩
      rw [List.append_nil]
      exact ha t d
  · intro t d
    show upd2 s.countD teacher cd.day (s.countD teacher cd.day + 1) t d ≤ 4
    unfold upd2
    by_cases hk : t = teacher ∧ d = cd.day
    · rw [if_pos hk]; omega
    · rw [if_neg hk]; exact hb t d
  · intro c hc
    rcases List.mem_append.mp hc with hin | hin
    · have hold := hcc c hin
      show c.location ∈ (if (s.locsD teacher cd.day).contains cd.location = true
        then s.locsD
        else upd2 s.locsD teacher cd.day
          (s.locsD teacher cd.day ++ [cd.location])) (fullName c) c.day
      split
      · exact hold
      · unfold upd2
        by_cases hk : fullName c = teacher ∧ c.day = cd.day
        · rw [if_pos hk]
          obtain ⟨hk1, hk2⟩ := hk
          rw [hk1, hk2] at hold
          exact List.mem_append_left _ hold
        · rw [if_neg hk]
          exact hold
    · have hceq := List.mem_singleton.mp hin
      subst hceq
      show c.location ∈ (if (s.locsD teacher cd.day).contains cd.location = true
        then s.locsD
        else upd2 s.locsD teacher cd.day
          (s.locsD teacher cd.day ++ [cd.location])) (fullName c) c.day
      rw [hname, hd, hl]
      split
      · next hcont => exact List.mem_of_elem_eq_true hcont
      · unfold upd2
        rw [if_pos ⟨rfl, rfl⟩]
        exact List.mem_append_right _ (List.mem_singleton.mpr rfl)
  · intro t d
    show ((if (s.locsD teacher cd.day).contains cd.location = true then s.locsD
      else upd2 s.locsD teacher cd.day
        (s.locsD teacher cd.day ++ [cd.location])) t d).length ≤ 1
    split
    · exact hdd t d
    · next hncont =>
      unfold upd2
      by_cases hk : t = teacher ∧ d = cd.day
      · rw [if_pos hk]
        rcases hlocs with hemp | hmem
        · rw [hemp]; simp
        · exfalso
          apply hncont
          exact List.elem_eq_true_of_mem hmem
      · rw [if_neg hk]
        exact hdd t d
  · intro t d
    show maxRunSorted (sortStr (timesOf (s.classes ++ [sc]) t d)) ≤ 2
    rw [timesOf_append]
    by_cases hk : t = teacher ∧ d = cd.day
    · obtain ⟨hk1, hk2⟩ := hk
      rw [hk1, hk2, timesOf_singleton_pos hname hd, htm]
      exact hcons
    · rw [timesOf_singleton_neg ?hne2, List.append_nil]
      case hne2 =>
        intro ⟨hn1, hn2⟩
        exact hk ⟨by rw [← hn1, hname], by rw [← hn2, hd]⟩
      exact he t d

theorem teachInv_step {k : Ctx} {s s' : BuildState}
    (hH : ∀ t ∈ k.allTs, 2 ≤ (splitSpace t).length)
    (h : Step k s s') (hs : TeachInv s) : TeachInv s' := by
  rcases h with rfl | ⟨cd, teacher, hmem, hcan, rfl⟩
  · exact hs
  · unfold assignClass
    dsimp only
    by_cases hcap' : canAssignClassToStudio s.classes cd.day cd.time cd.location
        (getClassDuration cd.classFormat) = true
    case neg =>
      have hb : canAssignClassToStudio s.classes cd.day cd.time cd.location
          (getClassDuration cd.classFormat) = false := by
        rcases h' : canAssignClassToStudio s.classes cd.day cd.time cd.location
          (getClassDuration cd.classFormat) with _ | _
        · rfl
        · exact absurd h' hcap'
      simp only [hb, Bool.not_false, eq_self_iff_true, if_true]
      exact hs
    case pos =>
      simp only [hcap', Bool.not_true, Bool.false_eq_true, if_false]
      refine teachInv_assign s cd teacher _ _ _ _ _ ?_ rfl rfl rfl
        (canAssignTeacher_count hcan) (canAssignTeacher_consec hcan)
        (canAssignTeacher_locs hcan) hs
      exact splitSpace_reconstruct teacher (hH teacher hmem)

theorem teachInv_star {k : Ctx} {s s' : BuildState}
    (hH : ∀ t ∈ k.allTs, 2 ≤ (splitSpace t).length)
    (h : Star k s s') (hs : TeachInv s) : TeachInv s' := by
  induction h with
  | refl => exact hs
  | tail _ hstep ih => exact teachInv_step hH hstep ih

/-- Amended claim C8: in every generated schedule, a teacher (identified by
the first-name/last-name pair the output records) is assigned to at most one
location per day — provided every teacher name in the run (dataset, custom
list, defaults) splits into at least two space-separated parts, so that the
split/rejoin name round-trip is the identity. -/
theorem generateIntelligentSchedule_one_location (csv : List ClassData)
    (customTeachers : List CustomTeacher) (opts : Options) (suffix : Nat → String)
    (hH : ∀ t ∈ getUniqueTeachers csv customTeachers, 2 ≤ (splitSpace t).length) :
    ∀ c1 ∈ generateIntelligentSchedule csv customTeachers opts suffix,
      ∀ c2 ∈ generateIntelligentSchedule csv customTeachers opts suffix,
        fullName c1 = fullName c2 → c1.day = c2.day →
          c1.location = c2.location := by
  have hinv := teachInv_star (k := mkCtx csv customTeachers opts suffix) hH
    (runState_star csv customTeachers opts suffix) teachInv_init
  intro c1 h1 c2 h2 hn hd
  have m1 := hinv.2.2.1 c1 h1
  have m2 := hinv.2.2.1 c2 h2
  rw [← hn, ← hd] at m2
  exact length_le_one_unique (hinv.2.2.2.1 (fullName c1) c1.day) _ m1 _ m2

/-- Amended claim C9: in every generated schedule, each teacher pair has at
most 4 classes per day and no run of more than 2 classes with successive
start times within 90 minutes — under the same space-in-every-name proviso
as C8. -/
theorem generateIntelligentSchedule_daily_limits (csv : List ClassData)
    (customTeachers : List CustomTeacher) (opts : Options) (suffix : Nat → String)
    (hH : ∀ t ∈ getUniqueTeachers csv customTeachers, 2 ≤ (splitSpace t).length) :
    ∀ t d,
      (timesOf (generateIntelligentSchedule csv customTeachers opts suffix)
        t d).length ≤ 4 ∧
      maxRunSorted (sortStr (timesOf
        (generateIntelligentSchedule csv customTeachers opts suffix) t d)) ≤ 2 := by
  have hinv := teachInv_star (k := mkCtx csv customTeachers opts suffix) hH
    (runState_star csv customTeachers opts suffix) teachInv_init
  intro t d
  refine ⟨?_, hinv.2.2.2.2 t d⟩
  show (timesOf (runState csv customTeachers opts suffix).classes t d).length ≤ 4
  rw [← hinv.1 t d]
  exact hinv.2.1 t d

/-- Monday-restricted options used by concrete runs. -/
def optsMon : Options := { targetDay := some "Monday" }

/-- A placeholder scheduled class for indexing fallbacks. -/
def scDummy : SC := mkSC "" "" "" "" "" "" "" 0

/-- Historical data refuting C9 as stated: a spaceless teacher name "X"
defeats the consecutive-classes check (its classes are recorded under the
reconstructed name "X ", which the tracker key "X" never matches). -/
def csv9 : List ClassData :=
  [mkCD "Studio Mat 57" "Kenkere House" "Monday" "07:30" "X" 8 1000,
   mkCD "Studio Mat 57" "Kenkere House" "Monday" "07:45" "X" 8 1000,
   mkCD "Studio Mat 57" "Kenkere House" "Monday" "08:00" "X" 8 1000,
   mkCD "Studio Mat 57" "Kenkere House" "Monday" "08:15" "X" 8 1000]

/-- Counterexample to C9 as stated: on `csv9` the generated schedule gives
the teacher pair ("X", "") four classes at 15-minute gaps on Monday — a run
of 4 consecutive classes, exceeding the claimed bound of 2. -/
theorem generateIntelligentSchedule_daily_limits_counterexample :
    2 < maxRunSorted (sortStr (timesOf
      (generateIntelligentSchedule csv9 [] optsMon (fun _ => "s")) "X " "Monday")) := by
  decide

/-- Witness for the amended C9 on a concrete run with only default (spaced)
teacher names. -/
theorem generateIntelligentSchedule_daily_limits_witness :
    (∀ t ∈ getUniqueTeachers [] [], 2 ≤ (splitSpace t).length) ∧
    (timesOf (generateIntelligentSchedule [] [] optsMon (fun _ => "t"))
      "Anisha Shah" "Monday").length ≤ 4 ∧
    maxRunSorted (sortStr (timesOf
      (generateIntelligentSchedule [] [] optsMon (fun _ => "t"))
      "Anisha Shah" "Monday")) ≤ 2 :=
  ⟨by decide,
   (generateIntelligentSchedule_daily_limits [] [] optsMon (fun _ => "t")
     (by decide) "Anisha Shah" "Monday").1,
   (generateIntelligentSchedule_daily_limits [] [] optsMon (fun _ => "t")
     (by decide) "Anisha Shah" "Monday").2⟩

/-- Historical data refuting C8 as stated: teacher "X" (spaceless) and the
custom teacher with first name "X" and empty last name collapse to the same
output pair but are tracked under different keys. -/
def csv8 : List ClassData :=
  [mkCD "Studio Mat 57" "Kenkere House" "Monday" "07:30" "X" 8 1000,
   mkCD "Studio Mat 57" "Supreme HQ, Bandra" "Monday" "18:00" "X " 8 1000]

/-- The custom-teacher list of the C8 counterexample. -/
def ct8 : List CustomTeacher := [{ firstName := "X", lastName := "" }]

/-- Counterexample to C8 as stated: on `csv8`/`ct8` the generated schedule
contains two same-day classes with the same teacher name pair at two
different locations. -/
theorem generateIntelligentSchedule_one_location_counterexample :
    ∃ c1 ∈ generateIntelligentSchedule csv8 ct8 optsMon (fun _ => "s"),
      ∃ c2 ∈ generateIntelligentSchedule csv8 ct8 optsMon (fun _ => "s"),
        fullName c1 = fullName c2 ∧ c1.day = c2.day ∧
        c1.location ≠ c2.location := by
  decide

/-- First Monday class of the C8 witness run. -/
def c8w1 : SC :=
  (generateIntelligentSchedule [] [] optsMon (fun _ => "t")).getD 0 scDummy

/-- Second Monday class of the C8 witness run (same teacher). -/
def c8w2 : SC :=
  (generateIntelligentSchedule [] [] optsMon (fun _ => "t")).getD 1 scDummy

/-- Witness for the amended C8 on a concrete run: two same-teacher same-day
classes share a location. -/
theorem generateIntelligentSchedule_one_location_witness :
    (∀ t ∈ getUniqueTeachers [] [], 2 ≤ (splitSpace t).length) ∧
    c8w1 ∈ generateIntelligentSchedule [] [] optsMon (fun _ => "t") ∧
    c8w2 ∈ generateIntelligentSchedule [] [] optsMon (fun _ => "t") ∧
    fullName c8w1 = fullName c8w2 ∧ c8w1.day = c8w2.day ∧
    c8w1.location = c8w2.location :=
  ⟨by decide, by decide, by decide, by decide, by decide,
   generateIntelligentSchedule_one_location [] [] optsMon (fun _ => "t")
     (by decide) c8w1 (by decide) c8w2 (by decide) (by decide) (by decide)⟩

/-! ### Claim C3: determinism modulo generated ids

The only nondeterministic data in a run is the `Date.now()`/`Math.random()`
tail of each generated id, modelled by the `suffix` oracle.  The relation
`Rel` says two states agree on everything except the stored id strings; it
is preserved in lockstep by every phase. -/

/-- Erase the generated id. -/
def stripId (c : SC) : SC := { c with id := "" }

/-- Two builder states that agree on everything except stored ids. -/
def Rel (s1 s2 : BuildState) : Prop :=
  s1.classes.map stripId = s2.classes.map stripId ∧
  s1.hoursW = s2.hoursW ∧ s1.hoursD = s2.hoursD ∧ s1.countD = s2.countD ∧
  s1.shiftM = s2.shiftM ∧ s1.shiftE = s2.shiftE ∧ s1.locsD = s2.locsD

theorem any_congr' {α} {p q : α → Bool} :
    ∀ {l : List α}, (∀ a ∈ l, p a = q a) → l.any p = l.any q := by
  intro l
  induction l with
  | nil => intro _; rfl
  | cons x xs ih =>
    intro h
    show (p x || xs.any p) = (q x || xs.any q)
    rw [h x (List.mem_cons_self x xs), ih (fun a ha => h a (List.mem_cons_of_mem x ha))]

theorem all_congr' {α} {p q : α → Bool} :
    ∀ {l : List α}, (∀ a ∈ l, p a = q a) → l.all p = l.all q := by
  intro l
  induction l with
  | nil => intro _; rfl
  | cons x xs ih =>
    intro h
    show (p x && xs.all p) = (q x && xs.all q)
    rw [h x (List.mem_cons_self x xs), ih (fun a ha => h a (List.mem_cons_of_mem x ha))]

theorem countP_strip (p : SC → Bool) (hp : ∀ c, p (stripId c) = p c)
    {l1 l2 : List SC} (h : l1.map stripId = l2.map stripId) :
    l1.countP p = l2.countP p := by
  have e : ∀ l : List SC, List.countP p (l.map stripId) = l.countP p := by
    intro l
    rw [List.countP_map]
    exact List.countP_congr (fun x _ => by
      show p (stripId x) = true ↔ p x = true
      rw [hp x])
  rw [← e l1, h, e l2]

theorem filtermap_strip {β : Type} (p : SC → Bool) (g : SC → β)
    (hp : ∀ c, p (stripId c) = p c) (hg : ∀ c, g (stripId c) = g c)
    {l1 l2 : List SC} (h : l1.map stripId = l2.map stripId) :
    (l1.filter p).map g = (l2.filter p).map g := by
  have e : ∀ l : List SC, ((l.map stripId).filter p).map g = (l.filter p).map g := by
    intro l
    rw [List.filter_map, List.map_map]
    rw [List.filter_congr (fun x _ => by show p (stripId x) = p x; exact hp x)]
    exact List.map_congr_left (fun x _ => by show g (stripId x) = g x; exact hg x)
  rw [← e l1, h, e l2]

theorem filterlen_strip (p : SC → Bool) (hp : ∀ c, p (stripId c) = p c)
    {l1 l2 : List SC} (h : l1.map stripId = l2.map stripId) :
    (l1.filter p).length = (l2.filter p).length := by
  rw [← List.countP_eq_length_filter, ← List.countP_eq_length_filter]
  exact countP_strip p hp h

theorem any_strip (p : SC → Bool) (hp : ∀ c, p (stripId c) = p c)
    {l1 l2 : List SC} (h : l1.map stripId = l2.map stripId) :
    l1.any p = l2.any p := by
  have e : ∀ l : List SC, (l.map stripId).any p = l.any p := by
    intro l
    rw [List.any_map]
    exact any_congr' (fun x _ => by show p (stripId x) = p x; exact hp x)
  rw [← e l1, h, e l2]

theorem occCount_strip {l1 l2 : List SC} (h : l1.map stripId = l2.map stripId)
    (location day slot : String) :
    occCount l1 location day slot = occCount l2 location day slot := by
  unfold occCount
  exact countP_strip (fun c =>
    decide (c.location = location) && decide (c.day = day) &&
    (getOccupiedTimeSlots c.time c.duration).contains slot) (fun c => rfl) h

theorem canAssignClassToStudio_congr (day time location : String) (durQ : Nat)
    {l1 l2 : List SC} (h : l1.map stripId = l2.map stripId) :
    canAssignClassToStudio l1 day time location durQ =
    canAssignClassToStudio l2 day time location durQ := by
  unfold canAssignClassToStudio
  apply all_congr'
  intro slot _
  rw [occCount_strip h]

theorem timesOf_strip {l1 l2 : List SC} (h : l1.map stripId = l2.map stripId)
    (t d : String) : timesOf l1 t d = timesOf l2 t d := by
  unfold timesOf
  exact filtermap_strip
    (fun c => decide (fullName c = t) && decide (c.day = d)) (fun c => c.time)
    (fun c => rfl) (fun c => rfl) h

theorem getConsecutiveClassesCount_congr {l1 l2 : List SC}
    (h : l1.map stripId = l2.map stripId) (t d τ : String) :
    getConsecutiveClassesCount l1 t d τ = getConsecutiveClassesCount l2 t d τ := by
  unfold getConsecutiveClassesCount
  rw [timesOf_strip h]

theorem canAssignTeacher_congr (days : List String) {s1 s2 : BuildState}
    (hR : Rel s1 s2) (tn day time : String) (durQ : Nat) (cf loc : String) :
    canAssignTeacher days s1 tn day time durQ cf loc =
    canAssignTeacher days s2 tn day time durQ cf loc := by
  obtain ⟨hcl, hw, hdd, hcd, hsm, hse, hld⟩ := hR
  unfold canAssignTeacher
  rw [hw, hdd, hcd, hld, getConsecutiveClassesCount_congr hcl]

theorem findBestTeacherForClass_congr (csv : List ClassData)
    (days allTs : List String) {s1 s2 : BuildState} (hR : Rel s1 s2)
    (cf loc day time : String) :
    findBestTeacherForClass csv days allTs s1 cf loc day time =
    findBestTeacherForClass csv days allTs s2 cf loc day time := by
  have hfil : allTs.filter (fun t =>
      canAssignTeacher days s1 t day time (getClassDuration cf) cf loc) =
      allTs.filter (fun t =>
      canAssignTeacher days s2 t day time (getClassDuration cf) cf loc) :=
    List.filter_congr (fun t _ =>
      canAssignTeacher_congr days hR t day time (getClassDuration cf) cf loc)
  obtain ⟨hcl, hw, hdd, hcd, hsm, hse, hld⟩ := hR
  unfold findBestTeacherForClass
  rw [hfil, hw, hld, hsm, hse]

theorem assignClass_rel (su1 su2 : Nat → String) {s1 s2 : BuildState}
    (hR : Rel s1 s2) (cd : AssignData) (teacher : String) :
    (assignClass su1 s1 cd teacher).2 = (assignClass su2 s2 cd teacher).2 ∧
    Rel (assignClass su1 s1 cd teacher).1 (assignClass su2 s2 cd teacher).1 := by
  have hcap := canAssignClassToStudio_congr cd.day cd.time cd.location
    (getClassDuration cd.classFormat) hR.1
  obtain ⟨hcl, hw, hdd, hcd, hsm, hse, hld⟩ := hR
  unfold assignClass
  dsimp only
  rw [hcap]
  cases h2 : canAssignClassToStudio s2.classes cd.day cd.time cd.location
      (getClassDuration cd.classFormat) with
  | false =>
    simp only [Bool.not_false, eq_self_iff_true, if_true]
    exact ⟨trivial, hcl, hw, hdd, hcd, hsm, hse, hld⟩
  | true =>
    simp only [Bool.not_true, Bool.false_eq_true, if_false]
    refine ⟨trivial, ?_, ?_, ?_, ?_, ?_, ?_, ?_⟩
    · show (s1.classes ++ [_]).map stripId = (s2.classes ++ [_]).map stripId
      rw [List.map_append, List.map_append, hcl]
      rfl
    · show upd1 s1.hoursW teacher _ = upd1 s2.hoursW teacher _
      rw [hw]
    · show upd2 s1.hoursD teacher cd.day _ = upd2 s2.hoursD teacher cd.day _
      rw [hdd]
    · show upd2 s1.countD teacher cd.day _ = upd2 s2.countD teacher cd.day _
      rw [hcd]
    · show (if isMorningSlot cd.time then upd2 s1.shiftM teacher cd.day true
        else s1.shiftM) = _
      rw [hsm]
    · show (if !(isMorningSlot cd.time) && isEveningSlot cd.time
        then upd2 s1.shiftE teacher cd.day true else s1.shiftE) = _
      rw [hse]
    · show (if (s1.locsD teacher cd.day).contains cd.location = true then s1.locsD
        else upd2 s1.locsD teacher cd.day (s1.locsD teacher cd.day ++
          [cd.location])) = _
      rw [hld]

theorem foldl_rel {α} (f1 f2 : BuildState → α → BuildState)
    (hf : ∀ s1 s2 x, Rel s1 s2 → Rel (f1 s1 x) (f2 s2 x)) :
    ∀ (l : List α) s1 s2, Rel s1 s2 → Rel (l.foldl f1 s1) (l.foldl f2 s2) := by
  intro l
  induction l with
  | nil => intro s1 s2 h; exact h
  | cons x xs ih => intro s1 s2 h; exact ih (f1 s1 x) (f2 s2 x) (hf s1 s2 x h)

theorem filter_strip (p : SC → Bool) (hp : ∀ c, p (stripId c) = p c)
    {l1 l2 : List SC} (h : l1.map stripId = l2.map stripId) :
    (l1.filter p).map stripId = (l2.filter p).map stripId :=
  filtermap_strip p stripId hp (fun c => rfl) h

theorem phase0_rel (csv : List ClassData) (opts : Options)
    (days allTs : List String) (su1 su2 : Nat → String) {s1 s2 : BuildState}
    (hR : Rel s1 s2) :
    Rel (phase0 ⟨csv, opts, days, allTs, su1⟩ s1)
      (phase0 ⟨csv, opts, days, allTs, su2⟩ s2) := by
  unfold phase0
  refine foldl_rel _ _ ?_ getDefaultTopClasses s1 s2 hR
  intro t1 t2 dc hR2
  dsimp only
  by_cases h1 : (match opts.targetDay with
      | some td => decide (dc.day ≠ td)
      | none => false) = true
  · rw [if_pos h1, if_pos h1]
    exact hR2
  · rw [if_neg h1, if_neg h1]
    rw [canAssignTeacher_congr days hR2 dc.teacher dc.day dc.time
      (getClassDuration dc.classFormat) dc.classFormat dc.location]
    by_cases h2 : canAssignTeacher days t2 dc.teacher dc.day dc.time
        (getClassDuration dc.classFormat) dc.classFormat dc.location = true
    · rw [if_pos h2, if_pos h2]
      exact (assignClass_rel su1 su2 hR2 { classFormat := dc.classFormat, location := dc.location, day := dc.day, time := dc.time, avgParticipants := dc.avgParticipants, avgRevenue := Frac.ofInt 0 } dc.teacher).2
    · rw [if_neg h2, if_neg h2]
      exact hR2

theorem phase1_rel (csv : List ClassData) (opts : Options)
    (days allTs : List String) (su1 su2 : Nat → String) {s1 s2 : BuildState}
    (hR : Rel s1 s2) :
    Rel (phase1 ⟨csv, opts, days, allTs, su1⟩ s1)
      (phase1 ⟨csv, opts, days, allTs, su2⟩ s2) := by
  unfold phase1
  refine foldl_rel _ _ ?_ days s1 s2 hR
  intro t1 t2 day hR2
  dsimp only
  by_cases h1 : (["Saturday", "Sunday"].contains day) = true
  · rw [if_pos h1, if_pos h1]
    exact hR2
  · rw [if_neg h1, if_neg h1]
    rw [any_strip (fun c => decide (c.day = day) && decide (c.time = "07:30") && decide (c.location = "Kwality House, Kemps Corner")) (fun c => rfl) hR2.1]
    by_cases h2 : t2.classes.any (fun c => decide (c.day = day) && decide (c.time = "07:30") && decide (c.location = "Kwality House, Kemps Corner")) = true
    · rw [if_pos h2, if_pos h2]
      exact hR2
    · rw [if_neg h2, if_neg h2]
      cases hm : getBestClassForSlot csv opts.optimizationType
          "Kwality House, Kemps Corner" day "07:30" (getDayGuidelines day) with
      | none => exact hR2
      | some bestClass =>
        dsimp only
        rw [findBestTeacherForClass_congr csv days allTs hR2 bestClass.classFormat
          "Kwality House, Kemps Corner" day "07:30"]
        cases hfb : findBestTeacherForClass csv days allTs t2 bestClass.classFormat
            "Kwality House, Kemps Corner" day "07:30" with
        | none => exact hR2
        | some bestTeacher =>
          exact (assignClass_rel su1 su2 hR2 { classFormat := bestClass.classFormat, location := "Kwality House, Kemps Corner", day := day, time := "07:30", avgParticipants := bestClass.avgParticipants, avgRevenue := bestClass.avgRevenue } bestTeacher).2

theorem p2attempts_rel (csv : List ClassData) (opts : Options)
    (days allTs : List String) (su1 su2 : Nat → String)
    (day location time : String) (g : Guidelines) :
    ∀ (n : Nat) {s1 s2 : BuildState} (cnt : Nat), Rel s1 s2 →
    (p2attempts ⟨csv, opts, days, allTs, su1⟩ day location time g n s1 cnt).2 =
      (p2attempts ⟨csv, opts, days, allTs, su2⟩ day location time g n s2 cnt).2 ∧
    Rel (p2attempts ⟨csv, opts, days, allTs, su1⟩ day location time g n s1 cnt).1
      (p2attempts ⟨csv, opts, days, allTs, su2⟩ day location time g n s2 cnt).1 := by
  intro n
  induction n with
  | zero => intro s1 s2 cnt hR; exact ⟨rfl, hR⟩
  | succ m ih =>
    intro s1 s2 cnt hR
    unfold p2attempts
    dsimp only
    rw [canAssignClassToStudio_congr day time location 4 hR.1]
    by_cases h1 : (!canAssignClassToStudio s2.classes day time location 4) = true
    · rw [if_pos h1, if_pos h1]
      exact ⟨rfl, hR⟩
    · rw [if_neg h1, if_neg h1]
      cases hm : getBestClassForSlot csv opts.optimizationType location day time g with
      | none => exact ih cnt hR
      | some bestClass =>
        dsimp only
        rw [filtermap_strip (fun c => decide (c.location = location) && decide (c.day = day) && decide (c.time = time)) (fun c => c.classFormat) (fun c => rfl) (fun c => rfl) hR.1]
        by_cases h2 : (((s2.classes.filter (fun c => decide (c.location = location) && decide (c.day = day) && decide (c.time = time))).map (fun c => c.classFormat)).contains bestClass.classFormat) = true
        · rw [if_pos h2, if_pos h2]
          exact ih cnt hR
        · rw [if_neg h2, if_neg h2]
          rw [findBestTeacherForClass_congr csv days allTs hR bestClass.classFormat
            location day time]
          cases hfb : findBestTeacherForClass csv days allTs s2 bestClass.classFormat
              location day time with
          | none => exact ih cnt hR
          | some bestTeacher =>
            dsimp only
            have har := assignClass_rel su1 su2 hR { classFormat := bestClass.classFormat, location := location, day := day, time := time, avgParticipants := bestClass.avgParticipants, avgRevenue := bestClass.avgRevenue } bestTeacher
            rw [har.1]
            by_cases h3 : (assignClass su2 s2 { classFormat := bestClass.classFormat, location := location, day := day, time := time, avgParticipants := bestClass.avgParticipants, avgRevenue := bestClass.avgRevenue } bestTeacher).2 = true
            · rw [if_pos h3, if_pos h3]
              exact ih (cnt + 1) har.2
            · rw [if_neg h3, if_neg h3]
              exact ⟨rfl, har.2⟩

theorem p2times_rel (csv : List ClassData) (opts : Options)
    (days allTs : List String) (su1 su2 : Nat → String)
    (day location : String) (g : Guidelines) (maxC : Nat) :
    ∀ (slots : List String) {s1 s2 : BuildState} (cnt : Nat), Rel s1 s2 →
    (p2times ⟨csv, opts, days, allTs, su1⟩ day location g maxC slots s1 cnt).2 =
      (p2times ⟨csv, opts, days, allTs, su2⟩ day location g maxC slots s2 cnt).2 ∧
    Rel (p2times ⟨csv, opts, days, allTs, su1⟩ day location g maxC slots s1 cnt).1
      (p2times ⟨csv, opts, days, allTs, su2⟩ day location g maxC slots s2 cnt).1 := by
  intro slots
  induction slots with
  | nil => intro s1 s2 cnt hR; exact ⟨rfl, hR⟩
  | cons time rest ih =>
    intro s1 s2 cnt hR
    unfold p2times
    dsimp only
    by_cases h1 : maxC ≤ cnt
    · rw [if_pos h1, if_pos h1]
      exact ⟨rfl, hR⟩
    · rw [if_neg h1, if_neg h1]
      obtain ⟨he, hr⟩ := p2attempts_rel csv opts days allTs su1 su2 day location
        time g _ cnt hR
      rw [he]
      exact ih _ hr

set_option maxHeartbeats 2000000 in
theorem phase2day_rel (csv : List ClassData) (opts : Options)
    (days allTs : List String) (su1 su2 : Nat → String) (day : String)
    {s1 s2 : BuildState} (hR : Rel s1 s2) :
    Rel (phase2day ⟨csv, opts, days, allTs, su1⟩ s1 day)
      (phase2day ⟨csv, opts, days, allTs, su2⟩ s2 day) := by
  unfold phase2day
  dsimp only
  rw [filterlen_strip (fun c => decide (c.day = day)) (fun c => rfl) hR.1]
  have hgen : ∀ (g : Guidelines) (maxC : Nat) (ls : List String)
      (p1 p2 : BuildState × Nat), Rel p1.1 p2.1 → p1.2 = p2.2 →
      (ls.foldl (fun p location => p2times ⟨csv, opts, days, allTs, su1⟩ day location g maxC (getAvailableTimeSlots day) p.1 p.2) p1).2 =
        (ls.foldl (fun p location => p2times ⟨csv, opts, days, allTs, su2⟩ day location g maxC (getAvailableTimeSlots day) p.1 p.2) p2).2 ∧
      Rel (ls.foldl (fun p location => p2times ⟨csv, opts, days, allTs, su1⟩ day location g maxC (getAvailableTimeSlots day) p.1 p.2) p1).1
        ((ls.foldl (fun p location => p2times ⟨csv, opts, days, allTs, su2⟩ day location g maxC (getAvailableTimeSlots day) p.1 p.2) p2).1) := by
    intro g maxC ls
    induction ls with
    | nil => intro p1 p2 h he; exact ⟨he, h⟩
    | cons location rest ihl =>
      intro p1 p2 h he
      rw [List.foldl_cons, List.foldl_cons]
      rw [← he]
      obtain ⟨he2, hr2⟩ := p2times_rel csv opts days allTs su1 su2 day location
        g maxC (getAvailableTimeSlots day) p1.2 h
      exact ihl _ _ hr2 he2
  exact (hgen (getDayGuidelines day)
    (if day = "Sunday" then 5
     else (getAvailableTimeSlots day).length * engineLocations.length)
    engineLocations
    (s1, (s2.classes.filter (fun c => decide (c.day = day))).length)
    (s2, (s2.classes.filter (fun c => decide (c.day = day))).length)
    hR rfl).2

theorem phase2_rel (csv : List ClassData) (opts : Options)
    (days allTs : List String) (su1 su2 : Nat → String) {s1 s2 : BuildState}
    (hR : Rel s1 s2) :
    Rel (phase2 ⟨csv, opts, days, allTs, su1⟩ s1)
      (phase2 ⟨csv, opts, days, allTs, su2⟩ s2) := by
  unfold phase2
  exact foldl_rel (phase2day ⟨csv, opts, days, allTs, su1⟩)
    (phase2day ⟨csv, opts, days, allTs, su2⟩)
    (fun t1 t2 day hR2 => phase2day_rel csv opts days allTs su1 su2 day hR2)
    days s1 s2 hR

theorem p3times_rel (csv : List ClassData) (opts : Options)
    (days allTs : List String) (su1 su2 : Nat → String)
    (teacher : String) (sp : Specialty) (day location : String) :
    ∀ (slots : List String) {s1 s2 : BuildState}, Rel s1 s2 →
    Rel (p3times ⟨csv, opts, days, allTs, su1⟩ teacher sp day location slots s1)
      (p3times ⟨csv, opts, days, allTs, su2⟩ teacher sp day location slots s2) := by
  intro slots
  induction slots with
  | nil => intro s1 s2 hR; exact hR
  | cons time rest ih =>
    intro s1 s2 hR
    unfold p3times
    dsimp only
    rw [canAssignClassToStudio_congr day time location
      (getClassDuration sp.classFormat) hR.1]
    by_cases h1 : (!canAssignClassToStudio s2.classes day time location
        (getClassDuration sp.classFormat)) = true
    · rw [if_pos h1, if_pos h1]
      exact ih hR
    · rw [if_neg h1, if_neg h1]
      rw [any_strip (fun c => decide (c.classFormat = sp.classFormat)) (fun c => rfl) (filter_strip (fun c => decide (c.location = location) && decide (c.day = day) && decide (c.time = time)) (fun c => rfl) hR.1)]
      by_cases h2 : ((s2.classes.filter (fun c => decide (c.location = location) && decide (c.day = day) && decide (c.time = time))).any (fun c => decide (c.classFormat = sp.classFormat))) = true
      · rw [if_pos h2, if_pos h2]
        exact ih hR
      · rw [if_neg h2, if_neg h2]
        rw [canAssignTeacher_congr days hR teacher day time
          (getClassDuration sp.classFormat) sp.classFormat location]
        by_cases h3 : canAssignTeacher days s2 teacher day time
            (getClassDuration sp.classFormat) sp.classFormat location = true
        · rw [if_pos h3, if_pos h3]
          have har := assignClass_rel su1 su2 hR { classFormat := sp.classFormat, location := location, day := day, time := time, avgParticipants := sp.avgParticipants, avgRevenue := Frac.ofInt 0 } teacher
          rw [har.1]
          by_cases h4 : (assignClass su2 s2 { classFormat := sp.classFormat, location := location, day := day, time := time, avgParticipants := sp.avgParticipants, avgRevenue := Frac.ofInt 0 } teacher).2 = true
          · rw [if_pos h4, if_pos h4]
            exact har.2
          · rw [if_neg h4, if_neg h4]
            exact ih har.2
        · rw [if_neg h3, if_neg h3]
          exact ih hR

theorem p3locs_rel (csv : List ClassData) (opts : Options)
    (days allTs : List String) (su1 su2 : Nat → String)
    (teacher : String) (sp : Specialty) (peakOnly : Bool)
    {s1 s2 : BuildState} (hR : Rel s1 s2) :
    Rel (p3locs ⟨csv, opts, days, allTs, su1⟩ teacher sp peakOnly s1)
      (p3locs ⟨csv, opts, days, allTs, su2⟩ teacher sp peakOnly s2) := by
  unfold p3locs
  refine foldl_rel _ _ ?_ engineLocations s1 s2 hR
  intro t1 t2 location hR2
  dsimp only
  by_cases h1 : (!isClassAllowedAtLocation sp.classFormat location) = true
  · rw [if_pos h1, if_pos h1]
    exact hR2
  · rw [if_neg h1, if_neg h1]
    refine foldl_rel _ _ ?_ days t1 t2 hR2
    intro u1 u2 day hR3
    dsimp only
    rw [hR3.2.2.1, hR3.2.2.2.1]
    by_cases h2 : (decide (80 ≤ u2.hoursD teacher day) ||
        decide (4 ≤ u2.countD teacher day)) = true
    · rw [if_pos h2, if_pos h2]
      exact hR3
    · rw [if_neg h2, if_neg h2]
      exact p3times_rel csv opts days allTs su1 su2 teacher sp day location _ hR3

theorem p3specs_rel (csv : List ClassData) (opts : Options)
    (days allTs : List String) (su1 su2 : Nat → String)
    (teacher : String) (target20 : Nat) (peakOnly : Bool) :
    ∀ (sps : List Specialty) {s1 s2 : BuildState}, Rel s1 s2 →
    Rel (p3specs ⟨csv, opts, days, allTs, su1⟩ teacher target20 peakOnly sps s1)
      (p3specs ⟨csv, opts, days, allTs, su2⟩ teacher target20 peakOnly sps s2) := by
  intro sps
  induction sps with
  | nil => intro s1 s2 hR; exact hR
  | cons sp rest ih =>
    intro s1 s2 hR
    unfold p3specs
    rw [hR.2.1]
    by_cases h1 : target20 ≤ s2.hoursW teacher
    · rw [if_pos h1, if_pos h1]
      exact hR
    · rw [if_neg h1, if_neg h1]
      exact ih (p3locs_rel csv opts days allTs su1 su2 teacher sp peakOnly hR)

theorem phase3teacher_rel (csv : List ClassData) (opts : Options)
    (days allTs : List String) (su1 su2 : Nat → String) (teacher : String)
    {s1 s2 : BuildState} (hR : Rel s1 s2) :
    Rel (phase3teacher ⟨csv, opts, days, allTs, su1⟩ s1 teacher)
      (phase3teacher ⟨csv, opts, days, allTs, su2⟩ s2 teacher) := by
  unfold phase3teacher
  dsimp only
  rw [hR.2.1]
  by_cases h1 : (decide (opts.optimizationType = some OptType.revenue) &&
      decide (s2.hoursW teacher + 40 <
        if newTrainers.any (fun n => strIncludes teacher n) then 200 else 300)) = true
  · rw [if_pos h1, if_pos h1]
    exact p3specs_rel csv opts days allTs su1 su2 teacher _ true _ hR
  · rw [if_neg h1, if_neg h1]
    by_cases h2 : s2.hoursW teacher + 20 <
        (if newTrainers.any (fun n => strIncludes teacher n) then 200 else 300)
    · rw [if_pos h2, if_pos h2]
      exact p3specs_rel csv opts days allTs su1 su2 teacher _ false _ hR
    · rw [if_neg h2, if_neg h2]
      exact hR

theorem phase3_rel (csv : List ClassData) (opts : Options)
    (days allTs : List String) (su1 su2 : Nat → String) {s1 s2 : BuildState}
    (hR : Rel s1 s2) :
    Rel (phase3 ⟨csv, opts, days, allTs, su1⟩ s1)
      (phase3 ⟨csv, opts, days, allTs, su2⟩ s2) := by
  unfold phase3
  exact foldl_rel (phase3teacher ⟨csv, opts, days, allTs, su1⟩)
    (phase3teacher ⟨csv, opts, days, allTs, su2⟩)
    (fun t1 t2 teacher hR2 =>
      phase3teacher_rel csv opts days allTs su1 su2 teacher hR2)
    allTs s1 s2 hR

theorem runState_rel (csv : List ClassData) (ct : List CustomTeacher)
    (opts : Options) (su1 su2 : Nat → String) :
    Rel (runState csv ct opts su1) (runState csv ct opts su2) := by
  unfold runState mkCtx
  dsimp only
  exact phase3_rel csv opts _ _ su1 su2
    (phase2_rel csv opts _ _ su1 su2
      (phase1_rel csv opts _ _ su1 su2
        (phase0_rel csv opts _ _ su1 su2
          ⟨rfl, rfl, rfl, rfl, rfl, rfl, rfl⟩)))

/-- C3 (corrected): two runs of `generateIntelligentSchedule` on identical
inputs produce identical schedules (same records, same order) in every field
EXCEPT the generated `id`, whose `Date.now()`/`Math.random()` tail (the
`suffix` oracle) is not a function of the inputs.  The original claim, which
included the `id` field, is refuted by
`generateIntelligentSchedule_id_nondeterminism`. -/
theorem generateIntelligentSchedule_deterministic_mod_id (csv : List ClassData)
    (ct : List CustomTeacher) (opts : Options) (su1 su2 : Nat → String) :
    (generateIntelligentSchedule csv ct opts su1).map stripId =
    (generateIntelligentSchedule csv ct opts su2).map stripId :=
  (runState_rel csv ct opts su1 su2).1

/-- Counterexample to C3 as stated: with empty historical data and an empty
custom-teacher list, a Monday-only run still seeds default classes, and two
invocations whose id tails differ (`Date.now()`/`Math.random()` at two
moments) return record lists that are not identical, because the `id` fields
differ. -/
theorem generateIntelligentSchedule_id_nondeterminism :
    generateIntelligentSchedule [] [] optsMon (fun _ => "0") ≠
    generateIntelligentSchedule [] [] optsMon (fun _ => "1") := by decide

end Sched
